import Mathlib

set_option maxHeartbeats 1000000

namespace VW

/-- JSON-like Python values manipulated by the engine (vibeweb).
Numbers are modelled as integers: the engine only ever compares and adds
them, and no claim involves fractional values.  Dicts are association
lists in insertion order, mirroring Python dict iteration order. -/
inductive JVal where
  | null
  | bool (b : Bool)
  | num (n : Int)
  | str (s : String)
  | list (xs : List JVal)
  | dict (entries : List (String × JVal))

/-- Execution context: a Python `dict[str, Any]` restricted to JSON-like
values (the engine's own bookkeeping entries are all JSON-like). -/
abbrev Ctx := List (String × JVal)

/-- First-match association-list lookup, the observable behaviour of
Python `dict.get`. -/
def getK : List (String × α) → String → Option α
  | [], _ => none
  | (k', v) :: rest, k => if k' = k then some v else getK rest k

/-- Association-list update with Python dict semantics: overwrite in
place if the key exists, append otherwise. -/
def setK : List (String × α) → String → α → List (String × α)
  | [], k, v => [(k, v)]
  | (k', v') :: rest, k, v =>
      if k' = k then (k, v) :: rest else (k', v') :: setK rest k v

/-- `d.get(key)` on a Python dict of JSON values: missing keys give None. -/
def dGetD (d : List (String × JVal)) (k : String) : JVal :=
  (getK d k).getD .null

/-- Python truthiness (`bool(x)`) over the modelled values. -/
def pyTruthy : JVal → Bool
  | .null => false
  | .bool b => b
  | .num n => n ≠ 0
  | .str s => s ≠ ""
  | .list xs => ¬ xs.isEmpty
  | .dict d => ¬ d.isEmpty

mutual

/-- Python structural equality (`==`) over the modelled values.  Python's
cross-type numeric equalities (True == 1, 10 == 10.0) are outside the
integer-only value model; within it `==` is structural. -/
def jBeq : JVal → JVal → Bool
  | .null, .null => true
  | .bool a, .bool b => a == b
  | .num a, .num b => a == b
  | .str a, .str b => a == b
  | .list xs, .list ys => jBeqL xs ys
  | .dict xs, .dict ys => jBeqP xs ys
  | _, _ => false

/-- `==` on Python lists: pointwise. -/
def jBeqL : List JVal → List JVal → Bool
  | [], [] => true
  | x :: xs, y :: ys => jBeq x y && jBeqL xs ys
  | _, _ => false

/-- `==` on Python dicts, modelled on association lists in matching
order (the engine only compares dicts built in matching order). -/
def jBeqP : List (String × JVal) → List (String × JVal) → Bool
  | [], [] => true
  | (k, x) :: xs, (l, y) :: ys => k == l && jBeq x y && jBeqP xs ys
  | _, _ => false

end

/-! ### Character-level string operations

Core `String` functions (`trim`, `splitOn`, ...) are position-based and
do not reduce in the kernel, so the Python string operations used by the
engine are modelled directly on `List Char`. -/

/-- `str.strip()`: drop leading and trailing whitespace. -/
def cStrip (cs : List Char) : List Char :=
  ((cs.dropWhile Char.isWhitespace).reverse.dropWhile Char.isWhitespace).reverse

/-- `s.strip()` as a `String`. -/
def sStrip (s : String) : String := ⟨cStrip s.data⟩

/-- `s.split(".")` on characters: cut at every dot, keeping empty parts
(Python keeps them; `splitPath` filters them out afterwards). -/
def splitDots : List Char → List (List Char)
  | [] => [[]]
  | c :: rest =>
      let parts := splitDots rest
      if c = '.' then [] :: parts
      else
        match parts with
        | [] => [[c]]
        | p :: ps => (c :: p) :: ps

/-- `key.isdigit()` restricted to the decimal digits `int` accepts:
nonempty and all ASCII decimals.  The faithful `isdigit`, which also
accepts digit-typed characters `int` rejects, is `pyIsDigit` below, and
`descendE` carries the resulting raising path. -/
def isDigits (s : String) : Bool :=
  ¬ s.data.isEmpty ∧ s.data.all Char.isDigit

/-- `int(key)` for an all-digits key. -/
def digitsToNat (s : String) : Nat :=
  s.data.foldl (fun n c => n * 10 + (c.toNat - 48)) 0

/-- `[p for p in str(expr).strip().split(".") if p]`. -/
def splitPath (expr : String) : List String :=
  ((splitDots (cStrip expr.data)).map (fun cs => (⟨cs⟩ : String))).filter
    (fun p => p ≠ "")

/-- The loop of `lookup_path` (src/vibeweb/conditions.py lines 30-41):
walk the remaining dot-segments through the current value.  Maps are
looked up by key (a missing key gives None and the walk continues on
None, which then yields None); lists are indexed when the segment is all
digits, with out-of-range giving None; anything else gives None. -/
def descend : JVal → List String → JVal
  | v, [] => v
  | .dict d, k :: ks => descend (dGetD d k) ks
  | .list xs, k :: ks =>
      if isDigits k then
        if h : digitsToNat k < xs.length then descend (xs.get ⟨digitsToNat k, h⟩) ks
        else .null
      else .null
  | _, _ :: _ => .null

/-- `lookup_path` (src/vibeweb/conditions.py lines 14-41): dot-path
lookup over the execution context, returning None when anything along
the way is missing.  This is the restriction of `lookup_pathE` below to
paths whose `isdigit`-shaped segments are decimal (`lookup_pathE_agrees`);
the downstream definitions use this restriction. -/
def lookup_path (expr : String) (ctx : Ctx) : JVal :=
  match splitPath expr with
  | [] => .null
  | p :: ps => descend ((getK ctx p).getD .null) ps

/-- `cs` starts with `pre` (`str.startswith`). -/
def cStartsWith : List Char → List Char → Bool
  | _, [] => true
  | [], _ :: _ => false
  | c :: cs, p :: ps => c = p && cStartsWith cs ps

/-- `cs` ends with `suf` (`str.endswith`). -/
def cEndsWith (cs suf : List Char) : Bool :=
  cStartsWith cs.reverse suf.reverse

/-- Python `needle in hay` for strings: substring containment. -/
def cIsSubstr (needle : List Char) : List Char → Bool
  | [] => needle.isEmpty
  | c :: rest => cStartsWith (c :: rest) needle || cIsSubstr needle rest

/-- Errors raised by the engine.  `py` carries the message of a raised
Python exception (ConditionError / ActionError / converted others);
`fuel` marks exhaustion of the structural-recursion budget of the model
and never occurs for adequately fuelled runs. -/
inductive Err where
  | py (msg : String)
  | fuel
deriving DecidableEq

/-- One character of Python `str.isdigit()`.  `isdigit` accepts the
decimal digits (which `int()` converts) and also digit-typed characters
that `int()` rejects; the model carries the ASCII decimals for the
first class and the Latin-1 superscripts for the second (other Unicode
digit classes behave like one of the two and are not enumerated). -/
def pyIsDigitChar (c : Char) : Bool :=
  c.isDigit || c = '¹' || c = '²' || c = '³'

/-- `key.isdigit()` (src/vibeweb/conditions.py line 34). -/
def pyIsDigit (s : String) : Bool :=
  ¬ s.data.isEmpty ∧ s.data.all pyIsDigitChar

/-- `int(key)` (src/vibeweb/conditions.py line 35): converts a decimal
key, raises `ValueError` on an `isdigit`-accepted key that is not
decimal (such as a superscript digit). -/
def pyIntE (s : String) : Except Err Nat :=
  if isDigits s then .ok (digitsToNat s)
  else .error (.py ("invalid literal for int() with base 10: " ++ s))

/-- The loop of `lookup_path` (src/vibeweb/conditions.py lines 30-41)
with the `isdigit`/`int` distinction carried: maps are looked up by key
(missing gives None and the walk continues on None); a list with an
`isdigit` segment converts it with `int`, which can raise; an in-range
index descends, out-of-range gives None; anything else gives None. -/
def descendE : JVal → List String → Except Err JVal
  | v, [] => .ok v
  | .dict d, k :: ks => descendE (dGetD d k) ks
  | .list xs, k :: ks =>
      if pyIsDigit k then
        match pyIntE k with
        | .error e => .error e
        | .ok idx =>
            if h : idx < xs.length then descendE (xs.get ⟨idx, h⟩) ks
            else .ok .null
      else .ok .null
  | _, _ :: _ => .ok .null

/-- `lookup_path` (src/vibeweb/conditions.py lines 14-41) with the
raising path represented: `int(key)` on an `isdigit`-accepted segment
that is not decimal raises `ValueError`.  The total `lookup_path` above
is its restriction to paths whose digit-shaped segments are decimal
(`lookup_pathE_agrees`). -/
def lookup_pathE (expr : String) (ctx : Ctx) : Except Err JVal :=
  match splitPath expr with
  | [] => .ok .null
  | p :: ps => descendE ((getK ctx p).getD .null) ps

/-- A dict key counts as an operator key when it starts with `$`
(`_is_op_dict`, src/vibeweb/conditions.py lines 44-48). -/
def keyIsOp (k : String) : Bool :=
  match k.data with
  | '$' :: _ => true
  | _ => false

/-- `_is_op_dict`: any key starts with `$`. -/
def isOpDict (d : List (String × JVal)) : Bool :=
  d.any (fun p => keyIsOp p.1)

/-- The operator-key pattern `^\$[a-zA-Z_][a-zA-Z0-9_]*$` (`_OP_RE`). -/
def opNameOk (s : String) : Bool :=
  match s.data with
  | '$' :: c :: cs =>
      (c.isAlpha || c = '_') && cs.all (fun d => d.isAlphanum || d = '_')
  | _ => false

/-- The operators sharing the `[expr, value]` argument shape
(src/vibeweb/conditions.py lines 121-135). -/
def binOps : List String :=
  ["$eq", "$ne", "$gt", "$gte", "$lt", "$lte", "$in", "$contains",
   "$startsWith", "$endsWith", "$regex", "$any", "$all"]

/-- One equality-map entry (src/vibeweb/conditions.py lines 93-98):
the dot-path key must strip to something nonempty and resolve to a value
equal to the expected one; otherwise the whole map is false. -/
def eqMapEntry (ctx : Ctx) (p : String × JVal) : Bool :=
  !(cStrip p.1.data).isEmpty && jBeq (lookup_path p.1 ctx) p.2

section

variable (rgx : String → String → Except Err Bool)

/-- `eval_condition` (src/vibeweb/conditions.py lines 51-243), indexed
by recursion fuel (structural budget of the model; every recursive call
is on a strictly `jsize`-smaller condition, so `jsize cond` fuel always
suffices).  `rgx` is the oracle for `re.search` (pattern, haystack):
`ok b` for a match/no-match, `error` for an invalid pattern; no claim
depends on its behaviour.  Python's short-circuiting `all`/`any` loops
are modelled as folds that stop updating once the answer (or an error)
is decided, which is observationally identical because evaluation is
pure. -/
def evalCondF : Nat → JVal → Ctx → Except Err Bool
  | 0, _, _ => .error .fuel
  | f + 1, cond, ctx =>
    match cond with
    | .null => .ok true
    | .bool b => .ok b
    | .list cs =>
        cs.foldl (fun acc c =>
          match acc with
          | .ok true => evalCondF f c ctx
          | r => r) (.ok true)
    | .num _ => .ok false
    | .str _ => .ok false
    | .dict d =>
      if ¬ isOpDict d then
        .ok (d.all (eqMapEntry ctx))
      else
        match d with
        | [(op, arg)] =>
          if ¬ opNameOk op then .error (.py "Invalid $operator key")
          else if op = "$and" then
            match arg with
            | .list items =>
                items.foldl (fun acc c =>
                  match acc with
                  | .ok true => evalCondF f c ctx
                  | r => r) (.ok true)
            | _ => .error (.py "$and expects a list")
          else if op = "$or" then
            match arg with
            | .list items =>
                items.foldl (fun acc c =>
                  match acc with
                  | .ok false => evalCondF f c ctx
                  | r => r) (.ok false)
            | _ => .error (.py "$or expects a list")
          else if op = "$not" then
            match evalCondF f arg ctx with
            | .ok b => .ok (!b)
            | r => r
          else if op ∈ binOps then
            match arg with
            | .list [e, expected] =>
              match e with
              | .str expr =>
                if (cStrip expr.data).isEmpty then
                  .error (.py (op ++ " expr must be a non-empty string"))
                else
                  let actual := lookup_path expr ctx
                  if op = "$eq" then .ok (jBeq actual expected)
                  else if op = "$ne" then .ok (!jBeq actual expected)
                  else if op ∈ ["$gt", "$gte", "$lt", "$lte"] then
                    match actual, expected with
                    | .num a, .num b =>
                        if op = "$gt" then .ok (decide (a > b))
                        else if op = "$gte" then .ok (decide (a ≥ b))
                        else if op = "$lt" then .ok (decide (a < b))
                        else .ok (decide (a ≤ b))
                    | _, _ => .ok false
                  else if op = "$in" then
                    match expected with
                    | .list vals => .ok (vals.any (fun el => jBeq el actual))
                    | _ => .error (.py "$in expects [expr, [values...]]")
                  else if op = "$contains" then
                    match actual, expected with
                    | .str hay, .str needle => .ok (cIsSubstr needle.data hay.data)
                    | .list hay, _ => .ok (hay.any (fun el => jBeq el expected))
                    | .dict hay, .str needle => .ok (hay.any (fun p => p.1 == needle))
                    | _, _ => .ok false
                  else if op = "$startsWith" then
                    match expected with
                    | .str pre =>
                      match actual with
                      | .str a => .ok (cStartsWith a.data pre.data)
                      | _ => .ok false
                    | _ => .error (.py "$startsWith expects [expr, prefix_string]")
                  else if op = "$endsWith" then
                    match expected with
                    | .str suf =>
                      match actual with
                      | .str a => .ok (cEndsWith a.data suf.data)
                      | _ => .ok false
                    | _ => .error (.py "$endsWith expects [expr, suffix_string]")
                  else if op = "$regex" then
                    match expected with
                    | .str pat =>
                      match actual with
                      | .str a => rgx pat a
                      | _ => .ok false
                    | _ => .error (.py "$regex expects [expr, pattern_string]")
                  else
                    -- $any / $all
                    match expected with
                    | .dict c =>
                      match (match actual with
                             | .null => some ([] : List JVal)
                             | .list xs => some xs
                             | _ => none) with
                      | none => .ok false
                      | some items =>
                        if op = "$any" then
                          items.foldl (fun acc x =>
                            match acc with
                            | .ok false => evalCondF f (.dict c) (setK ctx "item" x)
                            | r => r) (.ok false)
                        else
                          items.foldl (fun acc x =>
                            match acc with
                            | .ok true => evalCondF f (.dict c) (setK ctx "item" x)
                            | r => r) (.ok true)
                    | _ => .error (.py (op ++ " expects [expr, <condition_object>]"))
              | _ => .error (.py (op ++ " expr must be a non-empty string"))
            | _ => .error (.py (op ++ " expects [expr, value]"))
          else if op = "$exists" then
            match arg with
            | .list l =>
              match l with
              | [e, b] =>
                match e with
                | .str expr =>
                  if (cStrip expr.data).isEmpty then
                    .error (.py "$exists expr must be a non-empty string")
                  else
                    match b with
                    | .null => .ok (!jBeq (lookup_path expr ctx) .null)
                    | _ => .ok ((!jBeq (lookup_path expr ctx) .null) == pyTruthy b)
                | _ => .error (.py "$exists expr must be a non-empty string")
              | _ => .error (.py "$exists expects expr or [expr, bool]")
            | .str expr =>
              if (cStrip expr.data).isEmpty then
                .error (.py "$exists expr must be a non-empty string")
              else .ok (!jBeq (lookup_path expr ctx) .null)
            | _ => .error (.py "$exists expr must be a non-empty string")
          else if op = "$truthy" then
            match arg with
            | .str expr =>
              if (cStrip expr.data).isEmpty then
                .error (.py "$truthy expects expr")
              else .ok (pyTruthy (lookup_path expr ctx))
            | _ => .error (.py "$truthy expects expr")
          else .error (.py ("Unknown operator: " ++ op))
        | _ => .error (.py "Operator condition objects must have exactly one $operator key")

end

mutual

/-- Structural size of a value; every recursive call of `evalCondF`
descends to a strictly smaller condition, so `jsize` bounds the fuel it
needs. -/
def jsize : JVal → Nat
  | .null => 1
  | .bool _ => 1
  | .num _ => 1
  | .str _ => 1
  | .list xs => 1 + jsizeL xs
  | .dict d => 1 + jsizeP d

/-- Sum of sizes of list elements. -/
def jsizeL : List JVal → Nat
  | [] => 0
  | x :: xs => jsize x + jsizeL xs

/-- Sum of sizes of dict values. -/
def jsizeP : List (String × JVal) → Nat
  | [] => 0
  | (_, v) :: rest => jsize v + jsizeP rest

end

/-- `eval_condition` at its sufficient fuel. -/
def eval_condition (rgx : String → String → Except Err Bool)
    (cond : JVal) (ctx : Ctx) : Except Err Bool :=
  evalCondF rgx (jsize cond) cond ctx

/-- Decimal digits of a natural number, most significant first; the
first argument is structural fuel (`n + 1` always suffices since `n / 10`
loses a digit per step). -/
def natDigits : Nat → Nat → List Char
  | 0, _ => []
  | f + 1, n =>
      if n < 10 then [Char.ofNat (48 + n)]
      else natDigits f (n / 10) ++ [Char.ofNat (48 + n % 10)]

/-- `str(n)` for an integer. -/
def intToStr : Int → String
  | .ofNat n => ⟨natDigits (n + 1) n⟩
  | .negSucc m => ⟨'-' :: natDigits (m + 2) (m + 1)⟩

mutual

/-- Python `repr` of a modelled value, as used by `str()` on containers.
String quoting is simplified to plain single quotes without escaping;
no claim renders exotic strings inside containers. -/
def pyRepr : JVal → String
  | .null => "None"
  | .bool true => "True"
  | .bool false => "False"
  | .num n => intToStr n
  | .str s => ⟨'\x27' :: (s.data ++ ['\x27'])⟩
  | .list xs => "[" ++ pyReprL xs ++ "]"
  | .dict d => "\x7b" ++ pyReprP d ++ "\x7d"

/-- Comma-separated reprs of list elements. -/
def pyReprL : List JVal → String
  | [] => ""
  | [x] => pyRepr x
  | x :: rest => pyRepr x ++ ", " ++ pyReprL rest

/-- Comma-separated `key: value` reprs of dict entries. -/
def pyReprP : List (String × JVal) → String
  | [] => ""
  | [(k, v)] => "\x27" ++ k ++ "\x27: " ++ pyRepr v
  | (k, v) :: rest => "\x27" ++ k ++ "\x27: " ++ pyRepr v ++ ", " ++ pyReprP rest

end

/-- Python `str(x)`: identity on strings, `repr` otherwise. -/
def pyStr : JVal → String
  | .str s => s
  | v => pyRepr v

/-- The text substituted for one `$\x7b...\x7d` placeholder whose inner
text is `inner`: `_template_lookup(match.group(1).strip())` rendered by
`str` (src/vibeweb/actions.py lines 94-105).  A missing value (None)
renders as empty text; `lookup_path` already strips its argument, so the
extra `.strip()` of the source is a no-op here. -/
def subText (inner : String) (ctx : Ctx) : List Char :=
  match lookup_path (sStrip inner) ctx with
  | .null => []
  | v => (pyStr v).data

mutual

/-- Scanner for `_TEMPLATE_RE.sub` (pattern `\$\x7b([^\x7d]+)\x7d`) in
`render_str`: copy text until a `$` is seen. -/
def scanText (ctx : Ctx) : List Char → List Char
  | [] => []
  | c :: rest => if c = '$' then scanDollar ctx rest else c :: scanText ctx rest

/-- A `$` was seen: a following brace opens a candidate placeholder;
another `$` restarts the candidate; anything else is literal text.
This mirrors the regex engine scanning for the next match position. -/
def scanDollar (ctx : Ctx) : List Char → List Char
  | [] => ['$']
  | c :: rest =>
      if c = '\x7b' then scanHole ctx [] rest
      else if c = '$' then '$' :: scanDollar ctx rest
      else '$' :: c :: scanText ctx rest

/-- Inside a candidate placeholder: `[^\x7d]+` is greedy, so the match
closes at the first closing brace, requires at least one inner char, and
if no closing brace remains the candidate (which then contains no brace
at all) is literal text. -/
def scanHole (ctx : Ctx) (acc : List Char) : List Char → List Char
  | [] => '$' :: '\x7b' :: acc.reverse
  | c :: rest =>
      if c = '\x7d' then
        if acc.isEmpty then '$' :: '\x7b' :: '\x7d' :: scanText ctx rest
        else subText ⟨acc.reverse⟩ ctx ++ scanText ctx rest
      else scanHole ctx (c :: acc) rest

end

/-- `render_str` (src/vibeweb/actions.py lines 99-105): substitute every
`$\x7bexpr\x7d` placeholder. -/
def render_str (template : String) (ctx : Ctx) : String :=
  ⟨scanText ctx template.data⟩

/-- `_TEMPLATE_RE.fullmatch(stripped)`: the whole text is one
placeholder exactly when it starts with `$` and an opening brace, ends
with a closing brace, and the inner text is nonempty and brace-free
(`[^\x7d]+` cannot cross a closing brace, so any other shape fails).
Returns the inner text (`group(1)`). -/
def exactHole : List Char → Option (List Char)
  | '$' :: '\x7b' :: rest =>
      match rest.reverse with
      | '\x7d' :: revInner =>
          let inner := revInner.reverse
          if inner.isEmpty || inner.contains '\x7d' then none else some inner
      | _ => none
  | _ => none

mutual

/-- `render_value` (src/vibeweb/actions.py lines 108-120): a string that
strips to exactly one placeholder resolves to the typed value; other
strings are substituted as text; lists and dicts render recursively
(dict keys are already strings, so `str(k)` is the identity); all other
values pass through.  The context argument comes first to keep the
mutual recursion structural in the value. -/
def render_value (ctx : Ctx) : JVal → JVal
  | .str s =>
      match exactHole (cStrip s.data) with
      | some inner => lookup_path (sStrip ⟨inner⟩) ctx
      | none => .str (render_str s ctx)
  | .list xs => .list (renderL ctx xs)
  | .dict d => .dict (renderP ctx d)
  | v => v

/-- Elementwise rendering of a list. -/
def renderL (ctx : Ctx) : List JVal → List JVal
  | [] => []
  | x :: rest => render_value ctx x :: renderL ctx rest

/-- Entrywise rendering of a dict. -/
def renderP (ctx : Ctx) : List (String × JVal) → List (String × JVal)
  | [] => []
  | (k, v) :: rest => (k, render_value ctx v) :: renderP ctx rest

end

/-! ### The flow engine (src/vibeweb/actions.py)

Effects are modelled in a state monad over a call counter for
`time.monotonic()`: the i-th monotonic call reads `clock i` from an
arbitrary clock oracle, which subsumes all real time behaviour
(concurrent interleaving, sleeps).  `_retry_sleep` performs no monotonic
call and is a no-op of the model.  Exceptions are `Except Err` results
threaded with the state.  The action registry and the outbound kinds
(http / llm / db) are Python objects threaded through the context in the
source; the model threads the registry as an explicit argument and
delegates outbound kinds to an oracle `ext`, which is exactly the
engine's uniform invocation contract. -/

/-- The effect monad: counter-threaded, exception-carrying computations. -/
def M (α : Type) : Type := Nat → Except Err α × Nat

instance : Monad M where
  pure a := fun s => (.ok a, s)
  bind x f := fun s =>
    match x s with
    | (.ok a, s') => f a s'
    | (.error e, s') => (.error e, s')

/-- Raise a Python exception carrying `msg`. -/
def raiseM (msg : String) : M α := fun s => (.error (.py msg), s)

/-- Out of model fuel (never reached by adequately fuelled runs). -/
def fuelM : M α := fun s => (.error .fuel, s)

/-- One `time.monotonic()` call: read the clock oracle and advance the
call counter. -/
def nowM (clock : Nat → Int) : M Int := fun s => (.ok (clock s), s + 1)

/-- `except Exception` around an action invocation: convert a raised
message to a `\x7bok: False, status: 500, data: \x7berror: msg\x7d\x7d`
result (src/vibeweb/actions.py lines 621-623 and 679-680).  Model fuel
exhaustion is not a Python exception and propagates. -/
def mkRes (ok : Bool) (status : Int) (data : JVal) : JVal :=
  .dict [("ok", .bool ok), ("status", .num status), ("data", data)]

/-- `\x7b"error": msg\x7d`. -/
def errData (msg : String) : JVal := .dict [("error", .str msg)]

/-- The short-circuit timeout result of `_run_step`. -/
def timeoutRes : JVal := mkRes false 504 (errData "timeout")

/-- The recorded result of a `when`-skipped step. -/
def skipRes : JVal :=
  .dict [("ok", .bool true), ("status", .num 204), ("data", .null),
         ("skipped", .bool true)]

/-- `result.get("ok")` truthiness (results are dicts in the source). -/
def resOk (r : JVal) : Bool :=
  pyTruthy (match r with | .dict d => dGetD d "ok" | _ => .null)

/-- Catch `Exception` from an invocation, converting to a 500 result. -/
def catchPy (x : M JVal) : M JVal := fun st =>
  match x st with
  | (.error (.py m), st') => (.ok (mkRes false 500 (errData m)), st')
  | r => r

/-- `ValueActionSpec` (src/vibeweb/spec.py lines 210-213). -/
structure ValueActionSpec where
  data : JVal
  status : Int := 200
  ok : Bool := true

/-- `FlowStepSpec` (src/vibeweb/spec.py lines 217-226).  `input`, `when`
and `set` are JSON-like; Python's `None` and JSON `null` are the same
value, modelled as `.null`. -/
structure FlowStepSpec where
  id : String
  use : String
  input : JVal := .null
  when : JVal := .null
  on_error : Option String := none
  set : JVal := .null
  retries : Int := 0
  timeout_s : Option Int := none
  parallel : Bool := false

/-- `FlowActionSpec` (src/vibeweb/spec.py lines 230-233). -/
structure FlowActionSpec where
  steps : List FlowStepSpec := []
  return_step : Option String := none
  vars : Option JVal := none

/-- `ActionSpec` (src/vibeweb/spec.py lines 237-247), restricted to the
fields the engine reads; the http/llm/db config objects stay behind the
outbound oracle. -/
structure ActionSpec where
  name : String
  kind : String := "http"
  method : String := "POST"
  auth : String := "api"
  value : Option ValueActionSpec := none
  flow : Option FlowActionSpec := none

/-- The action registry `ctx["actions"]` (name to spec). -/
abbrev Registry := List (String × ActionSpec)

/-- `_auth_level` (src/vibeweb/actions.py lines 466-474): `none` 0,
`api` 1, `admin` 2, anything else 0. -/
def authLevel (auth : String) : Int :=
  if auth = "none" then 0
  else if auth = "api" then 1
  else if auth = "admin" then 2
  else 0

/-- Value of an all-digits character list. -/
def digitsVal (ds : List Char) : Nat :=
  ds.foldl (fun n c => n * 10 + (c.toNat - 48)) 0

/-- `int(s)` / `float(s)` on a numeric string (integer-valued in the
model), `none` when parsing raises. -/
def strToIntOpt (s : String) : Option Int :=
  match cStrip s.data with
  | '-' :: ds =>
      if ¬ ds.isEmpty ∧ ds.all Char.isDigit then some (-(digitsVal ds : Int))
      else none
  | ds =>
      if ¬ ds.isEmpty ∧ ds.all Char.isDigit then some (digitsVal ds : Int)
      else none

/-- `int(raw)` with `except: 0` (`_flow_depth`,
src/vibeweb/actions.py lines 490-495). -/
def pyIntD : JVal → Int
  | .num n => n
  | .bool b => if b then 1 else 0
  | .str s => (strToIntOpt s).getD 0
  | _ => 0

/-- `float(raw)` with `except: None` (deadline parsing). -/
def pyFloatOpt : JVal → Option Int
  | .num n => some n
  | .bool b => some (if b then 1 else 0)
  | .str s => strToIntOpt s
  | _ => none

/-- `_flow_depth(ctx)`: `int(ctx.get("_flow_depth", 0))`, 0 on error. -/
def flowDepth (ctx : Ctx) : Int :=
  match getK ctx "_flow_depth" with
  | some v => pyIntD v
  | none => 0

/-- `_ensure_dict` (src/vibeweb/actions.py lines 498-504): reuse an
existing dict entry, else install an empty one. -/
def ensureDict (ctx : Ctx) (k : String) : Ctx :=
  match getK ctx k with
  | some (.dict _) => ctx
  | _ => setK ctx k (.dict [])

/-- Write `v` under key `k` of the dict stored at `ctx[outer]` (the
in-place mutation of the shared `steps`/`vars` dicts, made explicit).
The outer entry is always a dict after `_ensure_dict`. -/
def updInner (ctx : Ctx) (outer k : String) (v : JVal) : Ctx :=
  match getK ctx outer with
  | some (.dict d) => setK ctx outer (.dict (setK d k v))
  | _ => ctx

/-- `(s.on_error or "stop").lower()`. -/
def sLower (s : String) : String := ⟨s.data.map Char.toLower⟩

/-- Effective `on_error` mode of a step. -/
def onErrMode (o : Option String) : String :=
  match o with
  | none => "stop"
  | some s => if s = "" then "stop" else sLower s

/-- The per-key loop of `_apply_flow_set`: each write renders against
the context as updated by the previous writes (the source renders
against the live `ctx`, whose `vars` entry is the same object as
`vars_out`). -/
def applyFlowSetGo (stepId : String) : List (String × JVal) → Ctx → M Ctx
  | [], c => pure c
  | (k, v) :: rest, c =>
      if k = "" then
        raiseM ("flow step.set keys must be strings (step: " ++ stepId ++ ")")
      else applyFlowSetGo stepId rest (updInner c "vars" k (render_value c v))

/-- `_apply_flow_set` (src/vibeweb/actions.py lines 507-515): a falsy
mapping is a no-op; a truthy non-dict raises; keys must be nonempty. -/
def applyFlowSet (stepId : String) (mapping : JVal) (ctx : Ctx) : M Ctx :=
  if ¬ pyTruthy mapping then pure ctx
  else match mapping with
    | .dict m => applyFlowSetGo stepId m ctx
    | _ => raiseM ("flow step.set must be an object (step: " ++ stepId ++ ")")

/-- `_step_should_run` (src/vibeweb/actions.py lines 555-561): a falsy
`when` always runs (note Python truthiness: `when=False` or `when=\x7b\x7d`
also run); a `ConditionError` is re-raised as a flow configuration
error. -/
def stepShouldRun (rgx : String → String → Except Err Bool)
    (step : FlowStepSpec) (condCtx : Ctx) : M Bool :=
  if ¬ pyTruthy step.when then pure true
  else match eval_condition rgx step.when condCtx with
    | .ok b => pure b
    | .error (.py e) =>
        raiseM ("Invalid flow step.when (step: " ++ step.id ++ "): " ++ e)
    | .error .fuel => fuelM

/-- `_step_deadline_ts` (src/vibeweb/actions.py lines 535-553): keep the
parent deadline when the step has no `timeout_s`; otherwise propose
`now + timeout` (one monotonic call) and take the minimum with the
parent deadline. -/
def stepDeadline (clock : Nat → Int) (ctx : Ctx) (t : Option Int) :
    M (Option Int) :=
  let parentD : Option Int :=
    match getK ctx "_deadline_ts" with
    | some v => pyFloatOpt v
    | none => none
  match t with
  | none => pure parentD
  | some w => do
      let n ← nowM clock
      let proposed := n + max 0 w
      pure (some (match parentD with | none => proposed | some p => min p proposed))

/-- The retry loop of `_run_step` (src/vibeweb/actions.py lines
610-637), parameterized by the invocation `invoke` (constant across
attempts in the source).  `remaining` counts attempts still allowed
including the current one, starting from `(retries + 1).toNat` (Python
`range(int(step.retries) + 1)`, empty for negative retries, whose
exhaustion yields the post-loop 502); the Python guard
`attempt < retries` is `remaining ≥ 2`.  Before an attempt, a passed
deadline short-circuits to the 504 timeout without invoking; a raised
exception is recorded in `lastErr` and converted to a 500 result; the
first truthy `ok` returns; after the last attempt the result is coerced
to the timeout result only when some attempt raised (`last_error`), the
deadline exists, and a final monotonic check finds it passed. -/
def attemptLoopW (clock : Nat → Int) (invoke : M JVal) (deadline : Option Int) :
    Nat → Option String → M JVal
  | 0, _ => pure (mkRes false 502 (errData "step failed"))
  | remaining + 1, lastErr => do
      let timedOut ←
        match deadline with
        | some d => do
            let t ← nowM clock
            pure (decide (t ≥ d))
        | none => pure false
      if timedOut then pure timeoutRes
      else do
        let pr ← (fun st =>
          match invoke st with
          | (.error (.py m), st') => (.ok (mkRes false 500 (errData m), some m), st')
          | (.error .fuel, st') => ((.error .fuel : Except Err (JVal × Option String)), st')
          | (.ok r, st') => (.ok (r, lastErr), st') : M (JVal × Option String))
        let result := pr.1
        let lastErr' := pr.2
        if resOk result then pure result
        else
          match remaining with
          | r' + 1 => attemptLoopW clock invoke deadline (r' + 1) lastErr'
          | 0 =>
            match lastErr', deadline with
            | some _, some d => do
                let t ← nowM clock
                if t ≥ d then pure timeoutRes else pure result
            | _, _ => pure result

/-- `_run_step` (src/vibeweb/actions.py lines 563-637), parameterized by
the nested invocation `exec` (`execute_action` at one less nesting fuel).
`snap` carries the steps/vars snapshots passed for parallel steps (the
source always passes both or neither).  Checks, in source order: unknown
action; auth escalation (before anything executes); then input
rendering against the live context or the snapshots, the derived child
context (live `steps`/`vars` objects for sequential steps, the
snapshots for parallel ones, depth incremented by one, the computed
deadline), and the retry loop. -/
def runStepW (clock : Nat → Int)
    (exec : ActionSpec → JVal → JVal → Ctx → Registry → M JVal)
    (parent : ActionSpec) (reg : Registry) (depth : Int) (ctx : Ctx)
    (step : FlowStepSpec) (snap : Option (JVal × JVal)) : M JVal :=
  match getK reg step.use with
  | none => raiseM ("Flow step references unknown action: " ++ step.use)
  | some sub =>
    if authLevel sub.auth > authLevel parent.auth then
      raiseM ("Flow cannot use action " ++ sub.name ++ " with auth=" ++
        sub.auth ++ " from flow auth=" ++ parent.auth)
    else
      let renderCtx :=
        match snap with
        | none => ctx
        | some (ss, vs) => setK (setK ctx "steps" ss) "vars" vs
      let stepInput :=
        match step.input with
        | .null => (getK renderCtx "input").getD .null
        | v => render_value renderCtx v
      let childSteps :=
        match snap with
        | none => (getK ctx "steps").getD (.dict [])
        | some (ss, _) => ss
      let childVars :=
        match snap with
        | none => (getK ctx "vars").getD (.dict [])
        | some (_, vs) => vs
      do
        let dl ← stepDeadline clock ctx step.timeout_s
        let childExtra : Ctx :=
          [("steps", childSteps), ("vars", childVars),
           ("_flow_depth", .num (depth + 1))] ++
          (match dl with | some d => [("_deadline_ts", .num d)] | none => [])
        let q := (getK ctx "query").getD .null
        attemptLoopW clock (exec sub stepInput q childExtra reg) dl
          (step.retries + 1).toNat none

/-- The gate pre-pass of a parallel group (src/vibeweb/actions.py lines
660-666): evaluate every member's `when` against the snapshot context,
in declared order; a raise aborts the flow before anything runs. -/
def gatherGates (rgx : String → String → Except Err Bool) :
    List FlowStepSpec → Ctx → M (List (FlowStepSpec × Bool))
  | [], _ => pure []
  | s :: rest, condCtx => do
      let b ← stepShouldRun rgx s condCtx
      let more ← gatherGates rgx rest condCtx
      pure ((s, b) :: more)

/-- The `preset` dict of pre-resolved skip results for gated-out
members. -/
def buildPreset (gated : List (FlowStepSpec × Bool)) : List (String × JVal) :=
  gated.foldl (fun acc p => if p.2 then acc else setK acc p.1.id skipRes) []

/-- Run the gated-in members of a parallel group (futures, lines
668-672).  The model runs them in submission order; the clock oracle
absorbs real interleaving, and a member's raised exception — observed at
`future.result()` in the source's merge loop and converted there to a
500 result — is converted at run time, which is indistinguishable here
because evaluation is pure.  Results land in a dict keyed by step id
(later duplicate ids overwrite, as in the source's `futures` dict). -/
def runFutures (clock : Nat → Int)
    (exec : ActionSpec → JVal → JVal → Ctx → Registry → M JVal)
    (parent : ActionSpec) (reg : Registry) (depth : Int) (ctx : Ctx)
    (snap : JVal × JVal) :
    List FlowStepSpec → List (String × JVal) → M (List (String × JVal))
  | [], acc => pure acc
  | s :: rest, acc => do
      let r ← catchPy (runStepW clock exec parent reg depth ctx s (some snap))
      runFutures clock exec parent reg depth ctx snap rest (setK acc s.id r)

/-- The merge loop of a parallel group (lines 674-695): in declared
order, take the member's result (future, else preset, else a default
skip), write it into the live `steps` dict, apply its `set` against the
live context, and resolve error continuation: the first failing member
whose mode is not `continue` ends the flow with its result (`inl`);
otherwise the updated context and last result continue (`inr`). -/
def mergeLoop (futures preset : List (String × JVal)) :
    List FlowStepSpec → Ctx → Option JVal → M (JVal ⊕ (Ctx × Option JVal))
  | [], ctx, last => pure (.inr (ctx, last))
  | s :: rest, ctx, _ => do
      let result :=
        match getK futures s.id with
        | some r => r
        | none =>
          match getK preset s.id with
          | some r => r
          | none => skipRes
      let ctx1 := updInner ctx "steps" s.id result
      let ctx2 ← applyFlowSet s.id s.set ctx1
      if resOk result then mergeLoop futures preset rest ctx2 (some result)
      else if onErrMode s.on_error = "continue" then
        mergeLoop futures preset rest ctx2 (some result)
      else pure (.inl result)

/-- Outcome of the step-walking loop: early termination with a failing
result, or normal completion with the final context and last result. -/
inductive LoopOut where
  | early (result : JVal)
  | done (ctx : Ctx) (last : Option JVal)

/-- The step-walking loop of `_execute_flow` (lines 639-719).  The
first argument is structural fuel local to this flow: every iteration
consumes at least one step, so `steps.length + 1` always suffices.
Contiguous `parallel` steps form a group: snapshot `steps`/`vars`, gate
every member against the snapshot context, run the gated-in members
against the snapshots, merge in declared order; a sequential step gates
against the live context, records a skip or runs (a raise here
propagates and aborts the whole flow), applies `set`, and resolves
`on_error`. -/
def flowLoopF (rgx : String → String → Except Err Bool) (clock : Nat → Int)
    (exec : ActionSpec → JVal → JVal → Ctx → Registry → M JVal)
    (parent : ActionSpec) (reg : Registry) (depth : Int) :
    Nat → List FlowStepSpec → Ctx → Option JVal → M LoopOut
  | 0, _, _, _ => fuelM
  | _ + 1, [], ctx, last => pure (.done ctx last)
  | fs + 1, step :: rest, ctx, last =>
    if step.parallel then
      let grp := step :: rest.takeWhile (fun st => st.parallel)
      let rest' := rest.dropWhile (fun st => st.parallel)
      let stepsSnap := (getK ctx "steps").getD (.dict [])
      let varsSnap := (getK ctx "vars").getD (.dict [])
      let condCtx := setK (setK ctx "steps" stepsSnap) "vars" varsSnap
      do
        let gated ← gatherGates rgx grp condCtx
        let preset := buildPreset gated
        let toRun := (gated.filter (fun p => p.2)).map (fun p => p.1)
        let futures ← runFutures clock exec parent reg depth ctx
          (stepsSnap, varsSnap) toRun []
        let m ← mergeLoop futures preset grp ctx last
        match m with
        | .inl result => pure (.early result)
        | .inr (ctx', last') =>
            flowLoopF rgx clock exec parent reg depth fs rest' ctx' last'
    else do
      let should ← stepShouldRun rgx step ctx
      if ¬ should then do
        let ctx1 := updInner ctx "steps" step.id skipRes
        let ctx2 ← applyFlowSet step.id step.set ctx1
        flowLoopF rgx clock exec parent reg depth fs rest ctx2 (some skipRes)
      else do
        let result ← runStepW clock exec parent reg depth ctx step none
        let ctx1 := updInner ctx "steps" step.id result
        let ctx2 ← applyFlowSet step.id step.set ctx1
        if resOk result then
          flowLoopF rgx clock exec parent reg depth fs rest ctx2 (some result)
        else if onErrMode step.on_error = "continue" then
          flowLoopF rgx clock exec parent reg depth fs rest ctx2 (some result)
        else pure (.early result)

/-- Flow completion without `return_step`: the last executed or skipped
step's result, or the default for an empty step list (lines 726-728). -/
def finishLast : Option JVal → M JVal
  | none => pure (mkRes true 200 .null)
  | some l => pure l

/-- The context a flow's step loop starts from (src/vibeweb/actions.py
lines 524-533): ensure the shared `steps`/`vars` dicts, then merge the
optional flow-level vars initialization (rendered once against that
context; only nonempty string keys are written). -/
def flowInitCtx (flow : FlowActionSpec) (ctx0 : Ctx) : Ctx :=
  let ctx2 := ensureDict (ensureDict ctx0 "steps") "vars"
  match flow.vars with
  | none => ctx2
  | some v =>
    match render_value ctx2 v with
    | .dict entries =>
        entries.foldl
          (fun c p => if p.1 ≠ "" then updInner c "vars" p.1 p.2 else c) ctx2
    | _ => ctx2

/-- `_execute_flow` (src/vibeweb/actions.py lines 518-728),
parameterized by the nested invocation `exec`.  Source order: recursion
depth check; registry presence check (type filtering is carried by the
`Registry` type); the initial context (`flowInitCtx`); the step loop;
then completion: a truthy `return_step` returns the stored dict result
for that id or the fatal 500 `flow return_step missing` result,
otherwise the last result or the empty-flow default. -/
def executeFlowWith (rgx : String → String → Except Err Bool)
    (clock : Nat → Int)
    (exec : ActionSpec → JVal → JVal → Ctx → Registry → M JVal)
    (parent : ActionSpec) (flow : FlowActionSpec) (ctx0 : Ctx)
    (reg : Registry) : M JVal :=
  let depth := flowDepth ctx0
  if depth > 24 then raiseM "Flow nesting too deep"
  else if reg.isEmpty then
    raiseM "Flow action requires action registry in ctx[actions]"
  else
    do
      let out ← flowLoopF rgx clock exec parent reg depth
        (flow.steps.length + 1) flow.steps (flowInitCtx flow ctx0) none
      match out with
      | .early r => pure r
      | .done ctxF last =>
        match flow.return_step with
        | some rid =>
          if rid = "" then finishLast last
          else
            match (match getK ctxF "steps" with
                   | some (.dict d) => getK d rid
                   | _ => none) with
            | some (.dict r) => pure (.dict r)
            | _ => pure (mkRes false 500 (errData "flow return_step missing"))
        | none => finishLast last

/-- `execute_action` (src/vibeweb/actions.py lines 731-766), indexed by
flow-nesting fuel (decremented once per nested flow invocation; the
depth bound keeps real nesting at most 26 frames, so any larger fuel is
observationally sufficient).  Builds the invocation context (`input`,
`query or \x7b\x7d`, `env`, then the caller's extra entries on top) and
dispatches on the action kind; the outbound kinds (http / llm / db,
including their missing-config checks) are the oracle `ext`; `value`
renders its data; `flow` runs `_execute_flow` one fuel level down. -/
def executeAction (rgx : String → String → Except Err Bool)
    (clock : Nat → Int) (ext : ActionSpec → Ctx → M JVal)
    (envL : List (String × JVal)) :
    Nat → ActionSpec → JVal → JVal → Ctx → Registry → M JVal
  | 0, _, _, _, _, _ => fuelM
  | f + 1, action, input, query, extra, reg =>
    let qv := if pyTruthy query then query else .dict []
    let base : Ctx := [("input", input), ("query", qv), ("env", .dict envL)]
    let ctx := extra.foldl (fun c p => setK c p.1 p.2) base
    if action.kind = "http" ∨ action.kind = "llm" ∨ action.kind = "db" then
      ext action ctx
    else if action.kind = "value" then
      match action.value with
      | none => raiseM "Value action missing value config"
      | some v => pure (mkRes v.ok v.status (render_value ctx v.data))
    else if action.kind = "flow" then
      match action.flow with
      | none => raiseM "Flow action missing flow config"
      | some fl =>
          executeFlowWith rgx clock
            (fun a i q c r => executeAction rgx clock ext envL f a i q c r)
            action fl ctx reg
    else raiseM ("Unknown action kind: " ++ action.kind)

def rgx0 : String → String → Except Err Bool := fun _ _ => .ok false

def ctxT3 : Ctx :=
  [("row", .dict [("tags", .list [.str "vip", .str "new"]),
                  ("items", .list [.dict [("n", .num 1)], .dict [("n", .num 2)]])])]

def ctxR : Ctx := [("vars", .dict [("answer", .num 42), ("name", .str "bob")])]

def clock0 : Nat → Int := fun _ => 0
def extBoom : ActionSpec → Ctx → M JVal := fun _ _ => pure (mkRes false 502 (errData "boom"))

def makeValueA : ActionSpec :=
  { name := "make_value", kind := "value", auth := "api",
    value := some { data := .dict [("answer", .num 42)] } }
def readVarsA : ActionSpec :=
  { name := "read_vars", kind := "value", auth := "api",
    value := some { data := .dict [("seen", .str "${vars.answer}")] } }
def workflowA : ActionSpec :=
  { name := "workflow", kind := "flow", auth := "api",
    flow := some
      { steps :=
          [{ id := "a", use := "make_value",
             set := .dict [("answer", .str "${steps.a.data.answer}")] },
           { id := "b", use := "read_vars",
             when := .dict [("$exists", .str "vars.answer")] }],
        return_step := some "b" } }
def regA : Registry :=
  [("make_value", makeValueA), ("read_vars", readVarsA), ("workflow", workflowA)]

/-- A clock whose first monotonic reading is 0 and all later readings
are 10: time passes during the first attempt. -/
def clockC4 : Nat → Int := fun i => if i = 0 then 0 else 10

def admAct : ActionSpec :=
  { name := "adm", kind := "value", auth := "admin",
    value := some { data := .num 1 } }

def okAct : ActionSpec :=
  { name := "okv", kind := "value", auth := "api",
    value := some { data := .str "fine" } }

/-- An `api` flow whose first step is a parallel step using an
`admin` action with `on_error: continue`, followed by a harmless
sequential step. -/
def flowEsc : ActionSpec :=
  { name := "wf", kind := "flow", auth := "api",
    flow := some
      { steps :=
          [{ id := "p1", use := "adm", on_error := some "continue",
             parallel := true },
           { id := "s2", use := "okv" }] } }

def regEsc : Registry := [("adm", admAct), ("okv", okAct), ("wf", flowEsc)]

/-- An invocation oracle that echoes the `_flow_depth` entry of the
child context it receives. -/
def echoDepth : ActionSpec → JVal → JVal → Ctx → Registry → M JVal :=
  fun _ _ _ c _ => pure (mkRes true 200 ((getK c "_flow_depth").getD .null))

/-- The single-step flow body that invokes the `loop` action. -/
def selfSpec : FlowActionSpec := { steps := [{ id := "s", use := "loop" }] }

/-- A flow action whose only step invokes the flow itself: unbounded
nesting, stopped only by the recursion-depth check. -/
def selfFlow : ActionSpec :=
  { name := "loop", kind := "flow", auth := "api", flow := some selfSpec }

def regSelf : Registry := [("loop", selfFlow)]

/-- The step result the recursion-limit error is converted to by the
step retry loop. -/
def deepErr : JVal := mkRes false 500 (errData "Flow nesting too deep")

/-- A value is a map or a list, the only shapes `lookup_path` descends
into. -/
def isIndexable : JVal → Bool
  | .dict _ => true
  | .list _ => true
  | _ => false

def groupResult (futures preset : List (String × JVal)) (s : FlowStepSpec) :
    JVal :=
  match getK futures s.id with
  | some r => r
  | none =>
    match getK preset s.id with
    | some r => r
    | none => skipRes

def valOne : ActionSpec :=
  { name := "one", kind := "value", auth := "api",
    value := some { data := .num 1 } }

def valTwo : ActionSpec :=
  { name := "two", kind := "value", auth := "api",
    value := some { data := .num 2 } }

def failFirst : ActionSpec :=
  { name := "first", kind := "value", auth := "api",
    value := some { data := errData "first", status := 400, ok := false } }

def failSecond : ActionSpec :=
  { name := "second", kind := "value", auth := "api",
    value := some { data := errData "second", status := 401, ok := false } }

def probeA : ActionSpec :=
  { name := "probe", kind := "value", auth := "api",
    value := some { data := (.dict
        [("p2sk", .str "${steps.p2.skipped}"),
         ("s4st", .str "${steps.s4.status}"),
         ("x", .str "${vars.x}")]) } }

def flowPar : ActionSpec :=
  { name := "par", kind := "flow", auth := "api",
    flow := some
      { steps :=
          [{ id := "p1", use := "one", parallel := true,
             set := .dict [("x", .num 10)] },
           { id := "p2", use := "two", parallel := true,
             when := .dict [("steps.p1.ok", .bool true)] },
           { id := "p3", use := "two", parallel := true,
             set := .dict [("x", .num 20)] },
           { id := "s4", use := "two",
             when := .dict [("steps.p1.ok", .bool true)] },
           { id := "probe", use := "probe" }],
        return_step := some "probe" } }

def flowFailStop : ActionSpec :=
  { name := "f1", kind := "flow", auth := "api",
    flow := some
      { steps :=
          [{ id := "q1", use := "fa", parallel := true },
           { id := "q2", use := "fb", parallel := true }] } }

def flowFailCont : ActionSpec :=
  { name := "f2", kind := "flow", auth := "api",
    flow := some
      { steps :=
          [{ id := "r1", use := "fa", parallel := true,
             on_error := some "continue" },
           { id := "r2", use := "fb", parallel := true }] } }

def regC3 : Registry :=
  [("one", valOne), ("two", valTwo), ("fa", failFirst), ("fb", failSecond),
   ("probe", probeA)]

/-! ### General lemmas -/

theorem bind_apply (x : M α) (f : α → M β) (st : Nat) :
    (x >>= f) st =
      match x st with
      | (.ok a, st') => f a st'
      | (.error e, st') => (.error e, st') := rfl

theorem pure_apply (a : α) (st : Nat) : (pure a : M α) st = (.ok a, st) := rfl

theorem raiseM_apply (msg : String) (st : Nat) :
    (raiseM msg : M α) st = (.error (.py msg), st) := rfl

theorem resOk_mkRes (ok : Bool) (status : Int) (data : JVal) :
    resOk (mkRes ok status data) = ok := by
  cases ok <;> rfl

theorem catchPy_raise (m : String) :
    catchPy (raiseM m) = pure (mkRes false 500 (errData m)) := rfl

theorem catchPy_raise_apply (m : String) (st : Nat) :
    catchPy (raiseM m) st = (.ok (mkRes false 500 (errData m)), st) := rfl

theorem applyFlowSet_null (i : String) (c : Ctx) :
    applyFlowSet i .null c = pure c := rfl

theorem flowLoopF_nil (rgx : String → String → Except Err Bool)
    (clock : Nat → Int)
    (exec : ActionSpec → JVal → JVal → Ctx → Registry → M JVal)
    (parent : ActionSpec) (reg : Registry) (depth : Int) (n : Nat) (c : Ctx)
    (l : Option JVal) :
    flowLoopF rgx clock exec parent reg depth (n + 1) [] c l =
      pure (.done c l) := rfl

theorem descend_null (ks : List String) : descend .null ks = .null := by
  cases ks with
  | nil => rfl
  | cons k ks => rfl

theorem descendE_null (ks : List String) : descendE .null ks = .ok .null := by
  cases ks with
  | nil => rfl
  | cons k ks => rfl

theorem descendE_agrees : ∀ (ks : List String),
    (∀ k ∈ ks, pyIsDigit k = isDigits k) →
    ∀ v, descendE v ks = .ok (descend v ks) := by
  intro ks
  induction ks with
  | nil =>
    intro h v
    cases v <;> rfl
  | cons k ks ih =>
    intro h v
    have hk : pyIsDigit k = isDigits k := h k (List.mem_cons_self k ks)
    have hks : ∀ u ∈ ks, pyIsDigit u = isDigits u :=
      fun u hu => h u (List.mem_cons_of_mem k hu)
    cases v with
    | null => rfl
    | bool b => rfl
    | num n => rfl
    | str s => rfl
    | dict d =>
      show descendE (dGetD d k) ks = .ok (descend (dGetD d k) ks)
      exact ih hks (dGetD d k)
    | list xs =>
      show (if pyIsDigit k = true then
              (match pyIntE k with
               | Except.error e => Except.error e
               | Except.ok idx =>
                   if h : idx < xs.length then descendE (xs.get ⟨idx, h⟩) ks
                   else Except.ok JVal.null : Except Err JVal)
            else Except.ok JVal.null) =
        Except.ok (if isDigits k = true then
              (if h : digitsToNat k < xs.length then
                descend (xs.get ⟨digitsToNat k, h⟩) ks
              else JVal.null)
            else JVal.null)
      cases hdig : isDigits k with
      | true =>
        have hpd : pyIsDigit k = true := hk.trans hdig
        have hpi : pyIntE k = .ok (digitsToNat k) := by
          unfold pyIntE
          rw [if_pos hdig]
        rw [if_pos hpd, if_pos (rfl : true = true), hpi]
        show (if h : digitsToNat k < xs.length then
            descendE (xs.get ⟨digitsToNat k, h⟩) ks
          else Except.ok JVal.null) =
          Except.ok (if h : digitsToNat k < xs.length then
            descend (xs.get ⟨digitsToNat k, h⟩) ks
          else JVal.null)
        by_cases hlt : digitsToNat k < xs.length
        · rw [dif_pos hlt, dif_pos hlt]
          exact ih hks _
        · rw [dif_neg hlt, dif_neg hlt]
      | false =>
        have hpd : ¬ pyIsDigit k = true := by
          rw [hk.trans hdig]
          exact Bool.false_ne_true
        rw [if_neg hpd, if_neg Bool.false_ne_true]

theorem lookup_pathE_agrees (expr : String) (ctx : Ctx)
    (h : ∀ k ∈ splitPath expr, pyIsDigit k = isDigits k) :
    lookup_pathE expr ctx = .ok (lookup_path expr ctx) := by
  unfold lookup_pathE lookup_path
  cases hs : splitPath expr with
  | nil => rfl
  | cons p ps =>
    rw [hs] at h
    exact descendE_agrees ps
      (fun u hu => h u (List.mem_cons_of_mem p hu)) _

theorem authLevel_nonneg (s : String) : 0 ≤ authLevel s := by
  unfold authLevel
  split
  · exact le_refl 0
  · split
    · norm_num
    · split
      · norm_num
      · exact le_refl 0

theorem getK_setK_ne {α : Type} (c : List (String × α)) (k k' : String)
    (v : α) (h : ¬ k' = k) : getK (setK c k' v) k = getK c k := by
  induction c with
  | nil => simp [setK, getK, h]
  | cons p rest ih =>
    cases p with
    | mk a b =>
      by_cases hak : a = k'
      · simp only [setK, if_pos hak, getK, if_neg h, if_neg (hak ▸ h)]
      · simp only [setK, if_neg hak, getK, ih]

theorem getK_ensureDict_ne (c : Ctx) (k k' : String) (h : ¬ k' = k) :
    getK (ensureDict c k') k = getK c k := by
  unfold ensureDict
  cases hx : getK c k' with
  | none => exact getK_setK_ne c k k' _ h
  | some v =>
    cases v
    case dict d => rfl
    all_goals exact getK_setK_ne c k k' _ h

theorem anyMachine_fix_true (g : JVal → Except Err Bool) (items : List JVal) :
    items.foldl (fun (acc : Except Err Bool) x =>
      match acc with
      | Except.ok false => g x
      | r => r) (Except.ok true) = Except.ok true := by
  induction items with
  | nil => rfl
  | cons x xs ih => exact ih

theorem anyMachine_eval (g : JVal → Except Err Bool) (pred : JVal → Bool)
    (items : List JVal) (h : ∀ x ∈ items, g x = Except.ok (pred x)) :
    items.foldl (fun (acc : Except Err Bool) x =>
      match acc with
      | Except.ok false => g x
      | r => r) (Except.ok false) = Except.ok (items.any pred) := by
  induction items with
  | nil => rfl
  | cons x xs ih =>
    have hx : g x = Except.ok (pred x) := h x (List.mem_cons_self x xs)
    have hxs : ∀ y ∈ xs, g y = Except.ok (pred y) :=
      fun y hy => h y (List.mem_cons_of_mem x hy)
    rw [List.foldl_cons]
    show List.foldl _ (g x) xs = Except.ok ((x :: xs).any pred)
    rw [hx, List.any_cons]
    cases hp : pred x with
    | true => simp only [Bool.true_or]; exact anyMachine_fix_true g xs
    | false => simp only [Bool.false_or]; exact ih hxs

theorem allMachine_fix_false (g : JVal → Except Err Bool) (items : List JVal) :
    items.foldl (fun (acc : Except Err Bool) x =>
      match acc with
      | Except.ok true => g x
      | r => r) (Except.ok false) = Except.ok false := by
  induction items with
  | nil => rfl
  | cons x xs ih => exact ih

theorem allMachine_eval (g : JVal → Except Err Bool) (pred : JVal → Bool)
    (items : List JVal) (h : ∀ x ∈ items, g x = Except.ok (pred x)) :
    items.foldl (fun (acc : Except Err Bool) x =>
      match acc with
      | Except.ok true => g x
      | r => r) (Except.ok true) = Except.ok (items.all pred) := by
  induction items with
  | nil => rfl
  | cons x xs ih =>
    have hx : g x = Except.ok (pred x) := h x (List.mem_cons_self x xs)
    have hxs : ∀ y ∈ xs, g y = Except.ok (pred y) :=
      fun y hy => h y (List.mem_cons_of_mem x hy)
    rw [List.foldl_cons]
    show List.foldl _ (g x) xs = Except.ok ((x :: xs).all pred)
    rw [hx, List.all_cons]
    cases hp : pred x with
    | false => simp only [Bool.false_and]; exact allMachine_fix_false g xs
    | true => simp only [Bool.true_and]; exact ih hxs

theorem evalCondF_any_unfold (rgx : String → String → Except Err Bool)
    (f : Nat) (p : String) (c : List (String × JVal)) (ctx : Ctx) :
    evalCondF rgx (f + 1) (.dict [("$any", .list [.str p, .dict c])]) ctx =
      if (cStrip p.data).isEmpty then
        .error (.py "$any expr must be a non-empty string")
      else
        match (match lookup_path p ctx with
               | .null => some ([] : List JVal)
               | .list xs => some xs
               | _ => none) with
        | none => .ok false
        | some items =>
            items.foldl (fun acc x =>
              match acc with
              | .ok false => evalCondF rgx f (.dict c) (setK ctx "item" x)
              | r => r) (.ok false) := rfl

theorem evalCondF_all_unfold (rgx : String → String → Except Err Bool)
    (f : Nat) (p : String) (c : List (String × JVal)) (ctx : Ctx) :
    evalCondF rgx (f + 1) (.dict [("$all", .list [.str p, .dict c])]) ctx =
      if (cStrip p.data).isEmpty then
        .error (.py "$all expr must be a non-empty string")
      else
        match (match lookup_path p ctx with
               | .null => some ([] : List JVal)
               | .list xs => some xs
               | _ => none) with
        | none => .ok false
        | some items =>
            items.foldl (fun acc x =>
              match acc with
              | .ok true => evalCondF rgx f (.dict c) (setK ctx "item" x)
              | r => r) (.ok true) := rfl

theorem selfFlow_level
    (ex : ActionSpec → JVal → JVal → Ctx → Registry → M JVal)
    (ctx0 : Ctx) (outc : Except Err JVal) (dv : Int)
    (hdv : flowDepth ctx0 = dv) (hd : dv ≤ 24)
    (hdl : getK ctx0 "_deadline_ts" = none)
    (houtc : outc = .ok deepErr ∨ outc = .error (.py "Flow nesting too deep"))
    (hinv : ∀ (i q cs cv : JVal) (s : Nat),
      ex selfFlow i q
        [("steps", cs), ("vars", cv), ("_flow_depth", .num (dv + 1))]
        regSelf s = (outc, s)) :
    ∀ st, executeFlowWith rgx0 clock0 ex selfFlow selfSpec ctx0 regSelf st =
      (.ok deepErr, st) := by
  intro st
  have hdl2 : getK (flowInitCtx selfSpec ctx0) "_deadline_ts" = none := by
    show getK (ensureDict (ensureDict ctx0 "steps") "vars") "_deadline_ts" = none
    rw [getK_ensureDict_ne _ _ _ (by decide),
      getK_ensureDict_ne _ _ _ (by decide)]
    exact hdl
  have hsd : stepDeadline clock0 (flowInitCtx selfSpec ctx0) none = pure none := by
    unfold stepDeadline
    rw [hdl2]
  have hal : ∀ (iv : M JVal) (s : Nat), iv s = (outc, s) →
      attemptLoopW clock0 iv none (0 + 1) none s = (.ok deepErr, s) := by
    intro iv s hiv
    rw [attemptLoopW]
    rcases houtc with h | h <;> rw [h] at hiv <;>
      simp only [bind_apply, pure_apply, hiv, deepErr, resOk_mkRes,
        Bool.false_eq_true, if_false]
  have hrs : ∀ s, runStepW clock0 ex selfFlow regSelf (flowDepth ctx0)
      (flowInitCtx selfSpec ctx0) { id := "s", use := "loop" } none s =
      (.ok deepErr, s) := by
    intro s
    have hform : runStepW clock0 ex selfFlow regSelf (flowDepth ctx0)
        (flowInitCtx selfSpec ctx0) { id := "s", use := "loop" } none s =
        (do
          let dl ← stepDeadline clock0 (flowInitCtx selfSpec ctx0) none
          attemptLoopW clock0
            (ex selfFlow
              ((getK (flowInitCtx selfSpec ctx0) "input").getD JVal.null)
              ((getK (flowInitCtx selfSpec ctx0) "query").getD JVal.null)
              ([("steps",
                  (getK (flowInitCtx selfSpec ctx0) "steps").getD (JVal.dict [])),
                ("vars",
                  (getK (flowInitCtx selfSpec ctx0) "vars").getD (JVal.dict [])),
                ("_flow_depth", JVal.num (flowDepth ctx0 + 1))] ++
               (match dl with
                | some d2 => ([("_deadline_ts", JVal.num d2)] : Ctx)
                | none => ([] : Ctx))) regSelf) dl (0 + 1) none) s := rfl
    rw [hform, bind_apply, hsd, pure_apply, hdv]
    exact hal _ s (hinv _ _ _ _ s)
  have hloop : flowLoopF rgx0 clock0 ex selfFlow regSelf (flowDepth ctx0)
      (selfSpec.steps.length + 1) selfSpec.steps (flowInitCtx selfSpec ctx0)
      none st = (.ok (.early deepErr), st) := by
    have hssr : stepShouldRun rgx0 { id := "s", use := "loop" }
        (flowInitCtx selfSpec ctx0) = pure true := rfl
    rw [show selfSpec.steps = [{ id := "s", use := "loop" }] from rfl,
      show ((([{ id := "s", use := "loop" }] : List FlowStepSpec).length + 1) :
        Nat) = 1 + 1 from rfl, flowLoopF]
    simp only [show ({ id := "s", use := "loop" } : FlowStepSpec).parallel =
        false from rfl, Bool.false_eq_true, if_false, bind_apply, hssr,
      pure_apply, not_true, hrs,
      show ({ id := "s", use := "loop" } : FlowStepSpec).set = JVal.null
        from rfl, applyFlowSet_null, deepErr, resOk_mkRes,
      show onErrMode ({ id := "s", use := "loop" } : FlowStepSpec).on_error =
        "stop" from rfl]
    rw [if_neg (by decide : ¬ ("stop" : String) = "continue")]
    rfl
  unfold executeFlowWith
  rw [if_neg (by rw [hdv]; exact not_lt.mpr hd),
    show regSelf.isEmpty = false from rfl]
  simp only [Bool.false_eq_true, if_false, bind_apply, hloop]
  rfl

theorem selfFlow_chain : ∀ (k f : Nat), k + 1 ≤ f →
    ∀ (dv : Int), dv = 25 - (k : Int) →
    ∀ (i q cs cv : JVal) (s : Nat),
    executeAction rgx0 clock0 extBoom [] f selfFlow i q
      [("steps", cs), ("vars", cv), ("_flow_depth", .num dv)]
      regSelf s =
    ((if k = 0 then .error (.py "Flow nesting too deep") else .ok deepErr), s) := by
  intro k
  induction k with
  | zero =>
    intro f hf dv hdv i q cs cv s
    subst hdv
    obtain ⟨f', rfl⟩ : ∃ f', f = f' + 1 := ⟨f - 1, by omega⟩
    rfl
  | succ k ih =>
    intro f hf dv hdv i q cs cv s
    subst hdv
    obtain ⟨f', rfl⟩ : ∃ f', f = f' + 1 := ⟨f - 1, by omega⟩
    have happ := selfFlow_level
      (fun a i2 q2 c r => executeAction rgx0 clock0 extBoom [] f' a i2 q2 c r)
      (List.foldl (fun c p => setK c p.1 p.2)
        ([("input", i),
          ("query", if pyTruthy q = true then q else JVal.dict []),
          ("env", JVal.dict [])] : Ctx)
        ([("steps", cs), ("vars", cv),
          ("_flow_depth", JVal.num (25 - (((k + 1) : Nat) : Int)))] : Ctx))
      (if k = 0 then Except.error (Err.py "Flow nesting too deep")
       else Except.ok deepErr)
      (25 - (((k + 1) : Nat) : Int)) rfl (by push_cast; omega) rfl
      (by
        by_cases hk : k = 0
        · rw [if_pos hk]; exact Or.inr rfl
        · rw [if_neg hk]; exact Or.inl rfl)
      (fun i2 q2 cs2 cv2 s2 =>
        ih f' (by omega) ((25 - (((k + 1) : Nat) : Int)) + 1)
          (by push_cast; ring) i2 q2 cs2 cv2 s2) s
    rw [if_neg (Nat.succ_ne_zero k)]
    exact happ

theorem selfFlow_top : ∀ (f : Nat), 25 ≤ f → ∀ (s : Nat),
    executeAction rgx0 clock0 extBoom [] (f + 1) selfFlow .null .null [] regSelf s =
      (.ok deepErr, s) := by
  intro f hf s
  have happ := selfFlow_level
    (fun a i2 q2 c r => executeAction rgx0 clock0 extBoom [] f a i2 q2 c r)
    (List.foldl (fun c p => setK c p.1 p.2)
      ([("input", JVal.null),
        ("query", if pyTruthy JVal.null = true then JVal.null else JVal.dict []),
        ("env", JVal.dict [])] : Ctx)
      ([] : Ctx))
    (Except.ok deepErr) 0 rfl (by decide) rfl (Or.inl rfl)
    (fun i2 q2 cs2 cv2 s2 => by
      have h := selfFlow_chain 24 f (by omega) ((0 : Int) + 1) (by decide)
        i2 q2 cs2 cv2 s2
      rw [if_neg (by decide)] at h
      exact h) s
  exact happ

theorem selfFlow_deep_top :
    executeAction rgx0 clock0 extBoom [] 30 selfFlow .null .null [] regSelf 0 =
      (.ok deepErr, 0) :=
  selfFlow_top 29 (by decide) 0

theorem pureM_bind (a : α) (g : α → M β) : (pure a : M α) >>= g = g a := by
  funext st
  rw [bind_apply, pure_apply]

theorem bindM_congr (x : M α) (g1 g2 : α → M β) (h : ∀ a, g1 a = g2 a) :
    x >>= g1 = x >>= g2 := by
  funext st
  rw [bind_apply, bind_apply]
  rcases hx : x st with ⟨r, st2⟩
  cases r with
  | ok a => exact congrFun (h a) st2
  | error e => rfl

theorem mergeLoop_cons (futures preset : List (String × JVal))
    (s : FlowStepSpec) (rest : List FlowStepSpec) (ctx : Ctx)
    (last : Option JVal) :
    mergeLoop futures preset (s :: rest) ctx last =
      applyFlowSet s.id s.set
          (updInner ctx "steps" s.id (groupResult futures preset s)) >>=
        fun ctx2 =>
          if resOk (groupResult futures preset s) then
            mergeLoop futures preset rest ctx2
              (some (groupResult futures preset s))
          else if onErrMode s.on_error = "continue" then
            mergeLoop futures preset rest ctx2
              (some (groupResult futures preset s))
          else pure (.inl (groupResult futures preset s)) := rfl

theorem mergeLoop_futures_ext :
    ∀ (futures1 futures2 preset : List (String × JVal))
      (group : List FlowStepSpec) (ctx : Ctx) (last : Option JVal),
      (∀ s ∈ group, getK futures1 s.id = getK futures2 s.id) →
      mergeLoop futures1 preset group ctx last =
        mergeLoop futures2 preset group ctx last := by
  intro f1 f2 preset group
  induction group with
  | nil => intro ctx last h; rfl
  | cons s rest ih =>
    intro ctx last h
    have hs : getK f1 s.id = getK f2 s.id := h s (List.mem_cons_self s rest)
    have hrest : ∀ t ∈ rest, getK f1 t.id = getK f2 t.id :=
      fun t ht => h t (List.mem_cons_of_mem s ht)
    have hgr : groupResult f1 preset s = groupResult f2 preset s := by
      unfold groupResult
      rw [hs]
    rw [mergeLoop_cons, mergeLoop_cons, hgr]
    exact bindM_congr _ _ _ (fun c2 => by
      rw [ih c2 (some (groupResult f2 preset s)) hrest])

theorem mergeLoop_first_failure (futures preset : List (String × JVal)) :
    ∀ (pre : List FlowStepSpec) (s : FlowStepSpec) (rest : List FlowStepSpec)
      (ctx : Ctx) (last : Option JVal),
      (∀ t ∈ pre, resOk (groupResult futures preset t) = true ∨
        onErrMode t.on_error = "continue") →
      (∀ t ∈ pre, t.set = JVal.null) → s.set = JVal.null →
      resOk (groupResult futures preset s) = false →
      onErrMode s.on_error ≠ "continue" →
      mergeLoop futures preset (pre ++ s :: rest) ctx last =
        pure (.inl (groupResult futures preset s)) := by
  intro pre
  induction pre with
  | nil =>
    intro s rest ctx last _ _ hset hfail hmode
    rw [List.nil_append, mergeLoop_cons, hset, applyFlowSet_null, pureM_bind,
      hfail]
    simp only [Bool.false_eq_true, if_false]
    rw [if_neg hmode]
  | cons t pre2 ih =>
    intro s rest ctx last hpre hsets hset hfail hmode
    have ht := hpre t (List.mem_cons_self t pre2)
    have htset := hsets t (List.mem_cons_self t pre2)
    have hpre2 : ∀ u ∈ pre2, resOk (groupResult futures preset u) = true ∨
        onErrMode u.on_error = "continue" :=
      fun u hu => hpre u (List.mem_cons_of_mem t hu)
    have hsets2 : ∀ u ∈ pre2, u.set = JVal.null :=
      fun u hu => hsets u (List.mem_cons_of_mem t hu)
    rw [List.cons_append, mergeLoop_cons, htset, applyFlowSet_null, pureM_bind]
    rcases ht with hok | hcont
    · rw [if_pos hok]
      exact ih s rest _ _ hpre2 hsets2 hset hfail hmode
    · by_cases hok2 : resOk (groupResult futures preset t) = true
      · rw [if_pos hok2]
        exact ih s rest _ _ hpre2 hsets2 hset hfail hmode
      · rw [if_neg hok2, if_pos hcont]
        exact ih s rest _ _ hpre2 hsets2 hset hfail hmode

/-! ### Claims -/

/-- Claim C8 counterexample: the superscript digit in the path
`a.²` passes `key.isdigit()` but `int(key)` raises `ValueError`
(src/vibeweb/conditions.py lines 34-35), so resolution raises at a
representable input; the total restriction collapses it to null. -/
theorem c8_counterexample :
    pyIsDigit "²" = true
    ∧ isDigits "²" = false
    ∧ lookup_pathE "a.²" [("a", .list [.num 5])] =
        .error (.py "invalid literal for int() with base 10: ²")
    ∧ lookup_path "a.²" [("a", .list [.num 5])] = .null :=
  ⟨rfl, rfl, rfl, rfl⟩

/-- Claim C8 as amended: path resolution yields null in every miss
case — an empty or whitespace-only path; a first segment absent from
the context; an intermediate key absent from a map (the walk continues
on None and ends in null); an out-of-range decimal index into a list;
and a current value that is neither a map nor an indexable list — and
never raises on a path whose `isdigit`-shaped segments are decimal; but
a list reached by an `isdigit`-accepted segment that is not decimal
(such as a superscript digit) raises the `int` ValueError. -/
theorem c8_lookup_path_amended :
    (∀ (p : String) (ctx : Ctx), sStrip p = "" →
        lookup_pathE p ctx = .ok .null)
    ∧ (∀ (expr : String) (ctx : Ctx) (k : String) (ks : List String),
        splitPath expr = k :: ks → getK ctx k = none →
        lookup_pathE expr ctx = .ok .null)
    ∧ (∀ (d : List (String × JVal)) (k : String) (ks : List String),
        getK d k = none → descendE (.dict d) (k :: ks) = .ok .null)
    ∧ (∀ (xs : List JVal) (k : String) (ks : List String),
        isDigits k = true → xs.length ≤ digitsToNat k →
        descendE (.list xs) (k :: ks) = .ok .null)
    ∧ (∀ (v : JVal) (k : String) (ks : List String),
        isIndexable v = false → descendE v (k :: ks) = .ok .null)
    ∧ (∀ (xs : List JVal) (k : String) (ks : List String),
        pyIsDigit k = true → isDigits k = false →
        descendE (.list xs) (k :: ks) =
          .error (.py ("invalid literal for int() with base 10: " ++ k)))
    ∧ (∀ (expr : String) (ctx : Ctx),
        (∀ k ∈ splitPath expr, pyIsDigit k = isDigits k) →
        lookup_pathE expr ctx = .ok (lookup_path expr ctx)) := by
  refine ⟨?_, ?_, ?_, ?_, ?_, ?_, lookup_pathE_agrees⟩
  · intro p ctx h
    have hd : cStrip p.data = [] := congrArg String.data h
    simp only [lookup_pathE, splitPath, hd]
    rfl
  · intro expr ctx k ks h1 h2
    simp only [lookup_pathE, h1, h2, Option.getD_none]
    exact descendE_null ks
  · intro d k ks h
    show descendE (dGetD d k) ks = .ok .null
    simp only [dGetD, h, Option.getD_none]
    exact descendE_null ks
  · intro xs k ks h1 h2
    have hpd : pyIsDigit k = true := by
      rcases (show (¬ k.data.isEmpty ∧ k.data.all Char.isDigit) from
        of_decide_eq_true h1) with ⟨hne, hall⟩
      exact decide_eq_true ⟨hne, List.all_eq_true.mpr (fun c hc => by
        simp only [pyIsDigitChar, Bool.or_eq_true]
        exact Or.inl (Or.inl (Or.inl (List.all_eq_true.mp hall c hc))))⟩
    have hpi : pyIntE k = .ok (digitsToNat k) := by
      unfold pyIntE
      rw [if_pos h1]
    show (if pyIsDigit k = true then _ else _) = _
    rw [if_pos hpd, hpi]
    show (if h : digitsToNat k < xs.length then
        descendE (xs.get ⟨digitsToNat k, h⟩) ks
      else Except.ok JVal.null) = Except.ok JVal.null
    rw [dif_neg (Nat.not_lt.mpr h2)]
  · intro v k ks h
    cases v with
    | null => rfl
    | bool b => rfl
    | num n => rfl
    | str s => rfl
    | list xs => simp [isIndexable] at h
    | dict d => simp [isIndexable] at h
  · intro xs k ks h1 h2
    have hpi : pyIntE k =
        .error (.py ("invalid literal for int() with base 10: " ++ k)) := by
      unfold pyIntE
      rw [if_neg (by rw [h2]; exact Bool.false_ne_true)]
    show (if pyIsDigit k = true then _ else _) = _
    rw [if_pos h1, hpi]

/-- Claim C8 witness: each miss case, the raising superscript index,
and the agreement with the total restriction, at concrete inputs. -/
theorem c8_witness :
    lookup_pathE "  " [("a", .num 1)] = .ok .null
    ∧ lookup_pathE "miss.x" [("a", .num 1)] = .ok .null
    ∧ descendE (.dict [("b", .num 2)]) ["c"] = .ok .null
    ∧ descendE (.list [.num 5]) ["7", "z"] = .ok .null
    ∧ descendE (.num 3) ["x"] = .ok .null
    ∧ descendE (.list [.num 5]) ["²"] =
        .error (.py "invalid literal for int() with base 10: ²")
    ∧ lookup_pathE "a.0.b" [("a", .list [.dict [("b", .num 9)]])] =
        .ok (lookup_path "a.0.b" [("a", .list [.dict [("b", .num 9)]])]) := by
  refine ⟨c8_lookup_path_amended.1 "  " _ rfl,
    c8_lookup_path_amended.2.1 "miss.x" _ "miss" ["x"] rfl rfl,
    c8_lookup_path_amended.2.2.1 _ "c" [] rfl,
    c8_lookup_path_amended.2.2.2.1 [.num 5] "7" ["z"] rfl (by decide),
    c8_lookup_path_amended.2.2.2.2.1 (.num 3) "x" [] rfl,
    c8_lookup_path_amended.2.2.2.2.2.1 [.num 5] "²" [] rfl rfl,
    c8_lookup_path_amended.2.2.2.2.2.2 "a.0.b" _ ?_⟩
  intro k hk
  have : splitPath "a.0.b" = ["a", "0", "b"] := rfl
  rw [this] at hk
  simp only [List.mem_cons, List.not_mem_nil, or_false] at hk
  rcases hk with rfl | rfl | rfl <;> rfl

theorem scanHole_run (ctx : Ctx) (e : List Char) :
    ∀ (acc post : List Char), '\x7d' ∉ e →
    scanHole ctx acc (e ++ '\x7d' :: post) =
      if acc.isEmpty && e.isEmpty then
        '$' :: '\x7b' :: '\x7d' :: scanText ctx post
      else subText ⟨acc.reverse ++ e⟩ ctx ++ scanText ctx post := by
  induction e with
  | nil =>
    intro acc post _
    simp only [List.nil_append, scanHole, List.isEmpty_nil, Bool.and_true,
      List.append_nil, reduceIte]
  | cons c e' ih =>
    intro acc post hni
    have hc : c ≠ '\x7d' := fun hcc => hni (hcc ▸ List.mem_cons_self c e')
    have hni' : '\x7d' ∉ e' := fun hm => hni (List.mem_cons_of_mem c hm)
    show (if c = '\x7d' then _ else scanHole ctx (c :: acc) (e' ++ '\x7d' :: post)) = _
    rw [if_neg hc, ih (c :: acc) post hni']
    have hne : ((c :: acc).isEmpty && e'.isEmpty) = false := by
      simp [List.isEmpty]
    have hne2 : (acc.isEmpty && (c :: e').isEmpty) = false := by
      simp [List.isEmpty]
    rw [hne, hne2]
    simp only [if_false, List.reverse_cons, List.append_assoc, List.cons_append,
      List.nil_append, Bool.false_eq_true]

theorem scanText_copy (ctx : Ctx) (pre : List Char) (rest : List Char)
    (h : '$' ∉ pre) :
    scanText ctx (pre ++ rest) = pre ++ scanText ctx rest := by
  induction pre with
  | nil => rfl
  | cons c pre' ih =>
    have hc : c ≠ '$' := fun hcc => h (hcc ▸ List.mem_cons_self c pre')
    have h' : '$' ∉ pre' := fun hm => h (List.mem_cons_of_mem c hm)
    show (if c = '$' then _ else c :: scanText ctx (pre' ++ rest)) = _
    rw [if_neg hc, ih h']
    rfl

theorem scanText_subst (ctx : Ctx) (pre e post : List Char)
    (hpre : '$' ∉ pre) (he : '\x7d' ∉ e) (hne : e ≠ []) :
    scanText ctx (pre ++ '$' :: '\x7b' :: (e ++ '\x7d' :: post)) =
      pre ++ (subText ⟨e⟩ ctx ++ scanText ctx post) := by
  rw [scanText_copy ctx pre _ hpre]
  show pre ++ scanText ctx ('$' :: '\x7b' :: (e ++ '\x7d' :: post)) = _
  have h1 : scanText ctx ('$' :: '\x7b' :: (e ++ '\x7d' :: post)) =
      scanHole ctx [] (e ++ '\x7d' :: post) := rfl
  rw [h1, scanHole_run ctx e [] post he]
  have h2 : (([] : List Char).isEmpty && e.isEmpty) = false := by
    cases e with
    | nil => exact absurd rfl hne
    | cons c e' => rfl
  rw [h2]
  simp only [Bool.false_eq_true, if_false, List.reverse_nil, List.nil_append]

theorem renderL_map (ctx : Ctx) (xs : List JVal) :
    renderL ctx xs = xs.map (render_value ctx) := by
  induction xs with
  | nil => rfl
  | cons x rest ih => simp only [renderL, List.map_cons, ih]

theorem renderP_map (ctx : Ctx) (d : List (String × JVal)) :
    renderP ctx d = d.map (fun p => (p.1, render_value ctx p.2)) := by
  induction d with
  | nil => rfl
  | cons p rest ih =>
    cases p with
    | mk k v => simp only [renderP, List.map_cons, ih]

/-- Claim C1 counterexample: an `api` flow whose parallel step uses an
`admin` action (a genuine escalation: level 2 > 1) with
`on_error: continue` does not fail as a whole: the escalation error is
raised before the action executes, but the parallel merge loop catches
it as that step's `\x7bok: false, status: 500\x7d` result, `continue`
moves on, and the flow finishes ok with the following step's result. -/
theorem c1_counterexample :
    authLevel admAct.auth > authLevel flowEsc.auth
    ∧ executeAction rgx0 clock0 extBoom [] 5 flowEsc .null .null [] regEsc 0 =
        (.ok (mkRes true 200 (.str "fine")), 0)
    ∧ resOk (mkRes true 200 (.str "fine")) = true := by
  exact ⟨by decide, rfl, rfl⟩

/-- Claim C1 as amended: the escalation check compares auth levels
before anything of the step executes, and raises the configuration
error without invoking the action or reading the clock, identically for
sequential and parallel steps.  For a sequential step the raise
propagates out of the step loop, aborting the whole flow regardless of
`on_error`.  For a parallel step the group merge catches the raise and
converts it into that step's `\x7bok: false, status: 500\x7d` result,
which is then subject to error continuation: the flow ends with that
failing result unless the step's `on_error` is `continue`, in which
case the flow proceeds. -/
theorem c1_auth_escalation_amended (clock : Nat → Int)
    (rgx : String → String → Except Err Bool)
    (exec : ActionSpec → JVal → JVal → Ctx → Registry → M JVal)
    (parent : ActionSpec) (reg : Registry) (depth : Int) (step : FlowStepSpec)
    (sub : ActionSpec)
    (hreg : getK reg step.use = some sub)
    (hauth : authLevel sub.auth > authLevel parent.auth) :
    (∀ (ctx : Ctx) (snap : Option (JVal × JVal)),
        runStepW clock exec parent reg depth ctx step snap =
          raiseM ("Flow cannot use action " ++ sub.name ++ " with auth=" ++
            sub.auth ++ " from flow auth=" ++ parent.auth))
    ∧ (∀ (fs : Nat) (rest : List FlowStepSpec) (ctx : Ctx) (last : Option JVal)
         (st : Nat), step.parallel = false → pyTruthy step.when = false →
        flowLoopF rgx clock exec parent reg depth (fs + 1) (step :: rest) ctx
            last st =
          (.error (.py ("Flow cannot use action " ++ sub.name ++ " with auth=" ++
            sub.auth ++ " from flow auth=" ++ parent.auth)), st))
    ∧ (∀ (fs : Nat) (ctx : Ctx) (last : Option JVal) (st : Nat),
        step.parallel = true → pyTruthy step.when = false → step.set = .null →
        (onErrMode step.on_error ≠ "continue" →
          flowLoopF rgx clock exec parent reg depth (fs + 2) [step] ctx last st =
            (.ok (.early (mkRes false 500 (errData ("Flow cannot use action " ++
              sub.name ++ " with auth=" ++ sub.auth ++ " from flow auth=" ++
              parent.auth)))), st))
        ∧ (onErrMode step.on_error = "continue" →
          flowLoopF rgx clock exec parent reg depth (fs + 2) [step] ctx last st =
            (.ok (.done
              (updInner ctx "steps" step.id (mkRes false 500 (errData
                ("Flow cannot use action " ++ sub.name ++ " with auth=" ++
                 sub.auth ++ " from flow auth=" ++ parent.auth))))
              (some (mkRes false 500 (errData ("Flow cannot use action " ++
                sub.name ++ " with auth=" ++ sub.auth ++ " from flow auth=" ++
                parent.auth))))), st))) := by
  have hguard : ∀ (ctx : Ctx) (snap : Option (JVal × JVal)),
      runStepW clock exec parent reg depth ctx step snap =
        raiseM ("Flow cannot use action " ++ sub.name ++ " with auth=" ++
          sub.auth ++ " from flow auth=" ++ parent.auth) := by
    intro ctx snap
    unfold runStepW
    rw [hreg]
    exact if_pos hauth
  refine ⟨hguard, ?_, ?_⟩
  · intro fs rest ctx last st hseq hwhen
    have hsr : stepShouldRun rgx step ctx = pure true := by
      unfold stepShouldRun
      exact if_pos (by rw [hwhen]; exact Bool.false_ne_true)
    rw [flowLoopF, if_neg (by rw [hseq]; exact Bool.false_ne_true)]
    simp only [bind_apply, hsr, pure_apply, not_true, Bool.not_true,
      Bool.false_eq_true, if_false, hguard, raiseM_apply]
  · intro fs ctx last st hpar hwhen hset
    have hsrc : ∀ c : Ctx, stepShouldRun rgx step c = pure true := by
      intro c
      unfold stepShouldRun
      exact if_pos (by rw [hwhen]; exact Bool.false_ne_true)
    have hgg : ∀ (c : Ctx) (s : Nat),
        gatherGates rgx [step] c s = (.ok [(step, true)], s) := by
      intro c s
      unfold gatherGates
      simp only [bind_apply, hsrc c, pure_apply]
      rfl
    have hrf : ∀ (sp : JVal × JVal) (s : Nat),
        runFutures clock exec parent reg depth ctx sp [step] [] s =
          (.ok [(step.id, mkRes false 500 (errData ("Flow cannot use action " ++
            sub.name ++ " with auth=" ++ sub.auth ++ " from flow auth=" ++
            parent.auth)))], s) := by
      intro sp s
      unfold runFutures
      simp only [bind_apply, hguard, catchPy_raise_apply, setK]
      rfl
    constructor
    · intro hmode
      have hml : ∀ s, mergeLoop
          [(step.id, mkRes false 500 (errData ("Flow cannot use action " ++
            sub.name ++ " with auth=" ++ sub.auth ++ " from flow auth=" ++
            parent.auth)))] [] [step] ctx last s =
          (.ok (Sum.inl (mkRes false 500 (errData ("Flow cannot use action " ++
            sub.name ++ " with auth=" ++ sub.auth ++ " from flow auth=" ++
            parent.auth)))), s) := by
        intro s
        unfold mergeLoop
        rw [hset]
        simp only [getK, eq_self_iff_true, if_true, bind_apply,
          applyFlowSet_null, pure_apply, resOk_mkRes, Bool.false_eq_true,
          if_false, if_neg hmode]
      rw [flowLoopF, if_pos (by rw [hpar])]
      simp only [List.takeWhile_nil, List.dropWhile_nil, bind_apply, hgg,
        List.filter_cons, List.filter_nil, List.map_cons, List.map_nil,
        buildPreset, List.foldl_cons, List.foldl_nil, if_true,
        eq_self_iff_true, hrf, hml, pure_apply]
    · intro hmode
      have hml : ∀ s, mergeLoop
          [(step.id, mkRes false 500 (errData ("Flow cannot use action " ++
            sub.name ++ " with auth=" ++ sub.auth ++ " from flow auth=" ++
            parent.auth)))] [] [step] ctx last s =
          (.ok (Sum.inr (updInner ctx "steps" step.id
            (mkRes false 500 (errData ("Flow cannot use action " ++
              sub.name ++ " with auth=" ++ sub.auth ++ " from flow auth=" ++
              parent.auth))),
            some (mkRes false 500 (errData ("Flow cannot use action " ++
              sub.name ++ " with auth=" ++ sub.auth ++ " from flow auth=" ++
              parent.auth))))), s) := by
        intro s
        unfold mergeLoop
        rw [hset]
        simp only [getK, eq_self_iff_true, if_true, bind_apply,
          applyFlowSet_null, pure_apply, resOk_mkRes, Bool.false_eq_true,
          if_false, hmode, mergeLoop]
      rw [flowLoopF, if_pos (by rw [hpar])]
      simp only [List.takeWhile_nil, List.dropWhile_nil, bind_apply, hgg,
        List.filter_cons, List.filter_nil, List.map_cons, List.map_nil,
        buildPreset, List.foldl_cons, List.foldl_nil, if_true,
        eq_self_iff_true, hrf, hml, flowLoopF_nil, pure_apply]

/-- Claim C1 witness: the amended behaviours at concrete inputs — the
guard raises without executing, a sequential escalation aborts the
whole flow, and a parallel escalation merges as a 500 result whose
handling follows `on_error`. -/
theorem c1_witness :
    runStepW clock0 (executeAction rgx0 clock0 extBoom [] 4) flowEsc regEsc 0
        [] { id := "p1", use := "adm" } none =
      raiseM "Flow cannot use action adm with auth=admin from flow auth=api"
    ∧ flowLoopF rgx0 clock0 (executeAction rgx0 clock0 extBoom [] 4) flowEsc
        regEsc 0 2 [{ id := "p1", use := "adm" }] [] none 0 =
      (.error (.py "Flow cannot use action adm with auth=admin from flow auth=api"), 0)
    ∧ flowLoopF rgx0 clock0 (executeAction rgx0 clock0 extBoom [] 4) flowEsc
        regEsc 0 2 [{ id := "p1", use := "adm", parallel := true }] [] none 0 =
      (.ok (.early (mkRes false 500 (errData
        "Flow cannot use action adm with auth=admin from flow auth=api"))), 0) := by
  have h0 := c1_auth_escalation_amended clock0 rgx0
    (executeAction rgx0 clock0 extBoom [] 4) flowEsc regEsc 0
    { id := "p1", use := "adm" } admAct rfl (by decide)
  have h1 := c1_auth_escalation_amended clock0 rgx0
    (executeAction rgx0 clock0 extBoom [] 4) flowEsc regEsc 0
    { id := "p1", use := "adm", parallel := true } admAct rfl (by decide)
  exact ⟨h0.1 [] none,
    h0.2.1 1 [] [] none 0 rfl rfl,
    (h1.2.2 0 [] none 0 rfl rfl rfl).1 (by decide)⟩

/-- Claim C2 counterexample: the recursion-limit error is retried by
the step retry loop like a normal failure.  A step of a depth-24 flow
invokes the self-nesting flow, which raises `Flow nesting too deep`;
the step's `timeout_s` makes every attempt perform one monotonic call,
so the final counter counts `1 (deadline) + attempts + 1 (final
check)` monotonic calls: with `retries := 1` the counter ends at 4 —
two attempts were made on the recursion-limit error — versus 3 with
`retries := 0`.  In both runs the error surfaces as an ordinary
`\x7bok: false, status: 500\x7d` result, not a distinguished fatal
one. -/
theorem c2_counterexample :
    runStepW clock0 (executeAction rgx0 clock0 extBoom [] 5) selfFlow regSelf
        24 [("_flow_depth", .num 24)]
        { id := "s", use := "loop", retries := 1, timeout_s := some 100 }
        none 0 =
      (.ok (mkRes false 500 (errData "Flow nesting too deep")), 4)
    ∧ runStepW clock0 (executeAction rgx0 clock0 extBoom [] 5) selfFlow regSelf
        24 [("_flow_depth", .num 24)]
        { id := "s", use := "loop", retries := 0, timeout_s := some 100 }
        none 0 =
      (.ok (mkRes false 500 (errData "Flow nesting too deep")), 3) :=
  ⟨rfl, rfl⟩

/-- Claim C2 as amended: a flow invoked with `_flow_depth` above 24
raises the fatal `Flow nesting too deep` ActionError before any of its
steps run (i); each nested invocation passes `_flow_depth + 1` to its
child, observable by an oracle echoing the depth it receives (ii); but
when the over-deep invocation happens inside a step, the step's retry
loop catches the ActionError like any other exception, converting it to
the step result `\x7bok: false, status: 500, data: \x7berror: "Flow
nesting too deep"\x7d\x7d` (and retrying it when retries > 0, per the
counterexample); nesting the self-invoking flow from depth 0 therefore
returns that failing result at the top level — no stack overflow, no
silent truncation (iii). -/
theorem c2_recursion_amended :
    (∀ (rgx : String → String → Except Err Bool) (clock : Nat → Int)
       (exec : ActionSpec → JVal → JVal → Ctx → Registry → M JVal)
       (parent : ActionSpec) (flow : FlowActionSpec) (ctx0 : Ctx)
       (reg : Registry) (st : Nat), flowDepth ctx0 > 24 →
        executeFlowWith rgx clock exec parent flow ctx0 reg st =
          (.error (.py "Flow nesting too deep"), st))
    ∧ (∀ (clock : Nat → Int) (parent : ActionSpec) (reg : Registry)
         (depth : Int) (ctx : Ctx) (step : FlowStepSpec) (sub : ActionSpec)
         (st : Nat),
        getK reg step.use = some sub →
        ¬ authLevel sub.auth > authLevel parent.auth →
        step.timeout_s = none → step.retries = 0 →
        getK ctx "_deadline_ts" = none →
        runStepW clock echoDepth parent reg depth ctx step none st =
          (.ok (mkRes true 200 (.num (depth + 1))), st))
    ∧ executeAction rgx0 clock0 extBoom [] 30 selfFlow .null .null [] regSelf 0 =
        (.ok deepErr, 0) := by
  refine ⟨?_, ?_, selfFlow_deep_top⟩
  · intro rgx clock exec parent flow ctx0 reg st h
    unfold executeFlowWith
    rw [if_pos h]
    rfl
  · intro clock parent reg depth ctx step sub st hreg hauth hto hretr hdl
    have hsd : stepDeadline clock ctx none = pure none := by
      unfold stepDeadline
      rw [hdl]
    simp only [runStepW, hreg, if_neg hauth, hto, hretr, hsd, bind_apply,
      pure_apply, List.append_nil, zero_add, Int.toNat_one]
    rw [show (1 : Nat) = 0 + 1 from rfl, attemptLoopW]
    simp only [bind_apply, pure_apply, echoDepth]
    rw [show (getK ([("steps", (getK ctx "steps").getD (JVal.dict [])),
        ("vars", (getK ctx "vars").getD (JVal.dict [])),
        ("_flow_depth", JVal.num (depth + 1))] : Ctx) "_flow_depth") =
      some (JVal.num (depth + 1)) from rfl]
    simp only [Bool.false_eq_true, if_false, Option.getD_some, resOk_mkRes,
      if_true]
    rfl

/-- Claim C2 witness: an invocation at depth 25 is refused with the
fatal error before any step runs, and a step at depth 3 passes depth 4
to the child it invokes. -/
theorem c2_witness :
    executeFlowWith rgx0 clock0 echoDepth selfFlow selfSpec
        [("_flow_depth", .num 25)] regSelf 0 =
      (.error (.py "Flow nesting too deep"), 0)
    ∧ runStepW clock0 echoDepth selfFlow regSelf 3 []
        { id := "s", use := "loop" } none 0 =
      (.ok (mkRes true 200 (.num (3 + 1))), 0) :=
  ⟨c2_recursion_amended.1 rgx0 clock0 echoDepth selfFlow selfSpec
      [("_flow_depth", .num 25)] regSelf 0 (by decide),
   c2_recursion_amended.2.1 clock0 selfFlow regSelf 3 []
      { id := "s", use := "loop" } selfFlow 0 rfl (by decide) rfl rfl rfl⟩

/-- Claim C4 counterexample: one attempt (retries 0) starts before the
deadline (clock reading 0 < 5) and returns a plain non-ok result
without raising; every later clock reading is 10 ≥ 5, so the deadline
has since passed — yet the loop returns the 400 result unchanged, not
the 504 timeout result.  The final coercion of the source (line 633)
additionally requires `last_error`, i.e. that some attempt raised, so
the claim's "coerced whenever the deadline has since passed" is false;
the single final monotonic read never even happens here (final counter
1, only the pre-attempt check). -/
theorem c4_counterexample :
    attemptLoopW clockC4 (pure (mkRes false 400 (errData "bad"))) (some 5) 1
        none 0 =
      (.ok (mkRes false 400 (errData "bad")), 1)
    ∧ clockC4 1 ≥ 5
    ∧ mkRes false 400 (errData "bad") ≠ timeoutRes := by
  refine ⟨rfl, by decide, ?_⟩
  intro h
  simp only [mkRes, timeoutRes, errData, JVal.dict.injEq, List.cons.injEq,
    Prod.mk.injEq, JVal.num.injEq, JVal.str.injEq] at h
  exact absurd h.2.1.2 (by decide)

/-- Claim C4 as amended: in the retry loop of up to `retries + 1`
attempts — (i) before each attempt, a passed deadline short-circuits to
the 504 timeout without invoking the action (the result does not depend
on `invoke`); (ii)/(iii) the loop returns the first `ok` result; (iv) a
failing final attempt returns the last result unchanged when no attempt
raised, even if the deadline has since passed; (v) when some attempt
raised, the final result is coerced to the timeout result exactly when
a last monotonic check finds the deadline passed, (vi) and otherwise is
the converted 500 result; (vii) a non-ok result with attempts remaining
is retried with the same arguments. -/
theorem c4_retry_loop_amended (clock : Nat → Int) (invoke : M JVal) (d : Int)
    (st : Nat) :
    (∀ rem lastErr, clock st ≥ d →
        attemptLoopW clock invoke (some d) (rem + 1) lastErr st =
          (.ok timeoutRes, st + 1))
    ∧ (∀ rem lastErr r st', clock st < d → invoke (st + 1) = (.ok r, st') →
        resOk r = true →
        attemptLoopW clock invoke (some d) (rem + 1) lastErr st = (.ok r, st'))
    ∧ (∀ rem lastErr r st', invoke st = (.ok r, st') → resOk r = true →
        attemptLoopW clock invoke none (rem + 1) lastErr st = (.ok r, st'))
    ∧ (∀ r st', clock st < d → invoke (st + 1) = (.ok r, st') → resOk r = false →
        attemptLoopW clock invoke (some d) 1 none st = (.ok r, st'))
    ∧ (∀ m st', clock st < d → invoke (st + 1) = (.error (.py m), st') →
        clock st' ≥ d →
        attemptLoopW clock invoke (some d) 1 none st = (.ok timeoutRes, st' + 1))
    ∧ (∀ m st', clock st < d → invoke (st + 1) = (.error (.py m), st') →
        clock st' < d →
        attemptLoopW clock invoke (some d) 1 none st =
          (.ok (mkRes false 500 (errData m)), st' + 1))
    ∧ (∀ rem lastErr r st', invoke st = (.ok r, st') → resOk r = false →
        attemptLoopW clock invoke none (rem + 2) lastErr st =
          attemptLoopW clock invoke none (rem + 1) lastErr st') := by
  refine ⟨?_, ?_, ?_, ?_, ?_, ?_, ?_⟩
  · intro rem lastErr h
    rw [attemptLoopW]
    simp only [bind_apply, nowM, pure_apply, ge_iff_le,
      decide_eq_true (show d ≤ clock st from h), if_true]
  · intro rem lastErr r st' hlt hinv hok
    rw [attemptLoopW]
    simp only [bind_apply, nowM, pure_apply, ge_iff_le,
      decide_eq_false (show ¬ d ≤ clock st from not_le.mpr hlt),
      Bool.false_eq_true, if_false, hinv, hok, if_true]
  · intro rem lastErr r st' hinv hok
    rw [attemptLoopW]
    simp only [bind_apply, nowM, pure_apply, hinv, hok, if_true,
      Bool.false_eq_true, if_false]
  · intro r st' hlt hinv hfail
    rw [attemptLoopW]
    simp only [bind_apply, nowM, pure_apply, ge_iff_le,
      decide_eq_false (show ¬ d ≤ clock st from not_le.mpr hlt),
      Bool.false_eq_true, if_false, hinv, hfail]
  · intro m st' hlt hinv hge
    rw [attemptLoopW]
    simp only [bind_apply, nowM, pure_apply, ge_iff_le,
      decide_eq_false (show ¬ d ≤ clock st from not_le.mpr hlt),
      Bool.false_eq_true, if_false, hinv, resOk_mkRes]
    rw [if_pos (show d ≤ clock st' from hge)]
    rfl
  · intro m st' hlt hinv hlt2
    rw [attemptLoopW]
    simp only [bind_apply, nowM, pure_apply, ge_iff_le,
      decide_eq_false (show ¬ d ≤ clock st from not_le.mpr hlt),
      Bool.false_eq_true, if_false, hinv, resOk_mkRes]
    rw [if_neg (not_le.mpr hlt2)]
    rfl
  · intro rem lastErr r st' hinv hfail
    rw [attemptLoopW]
    simp only [bind_apply, nowM, pure_apply, hinv, hfail,
      Bool.false_eq_true, if_false]

/-- Claim C4 witness: concrete runs through the amended clauses —
short-circuit before invoking, stop on first ok, and the coercion to
timeout after a raised attempt once the deadline passed. -/
theorem c4_witness :
    attemptLoopW clockC4 (pure (mkRes false 400 (errData "bad"))) (some 0) 3
        none 0 = (.ok timeoutRes, 1)
    ∧ attemptLoopW clockC4 (pure (mkRes true 200 .null)) (some 5) 2 none 0 =
        (.ok (mkRes true 200 .null), 1)
    ∧ attemptLoopW clockC4 (raiseM "boom") (some 5) 1 none 0 =
        (.ok timeoutRes, 2) := by
  refine ⟨?_, ?_, ?_⟩
  · exact (c4_retry_loop_amended clockC4 _ 0 0).1 2 none (by decide)
  · exact (c4_retry_loop_amended clockC4 _ 5 0).2.1 1 none _ 1 (by decide) rfl rfl
  · exact (c4_retry_loop_amended clockC4 _ 5 0).2.2.2.2.1 "boom" 1 (by decide)
      rfl (by decide)

/-- Claim C5: a flow invocation whose step loop runs to normal
completion (`done`) returns: the stored result under `return_step` when
that id is set and stored; the fatal 500 `flow return_step missing`
result when it is set but nothing is stored under it; otherwise the
last executed or skipped step's result, defaulting to
`\x7bok: true, status: 200, data: null\x7d` — and with an empty step
list the loop completes immediately with no last result, so that
default is returned. -/
theorem c5_flow_completion (rgx : String → String → Except Err Bool)
    (clock : Nat → Int)
    (exec : ActionSpec → JVal → JVal → Ctx → Registry → M JVal)
    (parent : ActionSpec) (flow : FlowActionSpec) (ctx0 : Ctx)
    (reg : Registry) (st st2 : Nat) (ctxF : Ctx) (last : Option JVal)
    (hd : flowDepth ctx0 ≤ 24) (hr : reg ≠ [])
    (hloop : flowLoopF rgx clock exec parent reg (flowDepth ctx0)
        (flow.steps.length + 1) flow.steps (flowInitCtx flow ctx0) none st =
      (.ok (.done ctxF last), st2)) :
    (∀ rid, flow.return_step = some rid → rid ≠ "" →
       ∀ d, getK ctxF "steps" = some (.dict d) →
          (∀ r, getK d rid = some (.dict r) →
             executeFlowWith rgx clock exec parent flow ctx0 reg st =
               (.ok (.dict r), st2))
          ∧ (getK d rid = none →
             executeFlowWith rgx clock exec parent flow ctx0 reg st =
               (.ok (mkRes false 500 (errData "flow return_step missing")), st2)))
    ∧ (flow.return_step = none →
        executeFlowWith rgx clock exec parent flow ctx0 reg st =
          (.ok (last.getD (mkRes true 200 .null)), st2))
    ∧ (flow.steps = [] → ctxF = flowInitCtx flow ctx0 ∧ last = none ∧ st2 = st) := by
  have hre : reg.isEmpty = false := by
    cases reg with
    | nil => exact absurd rfl hr
    | cons a l => rfl
  have hmain : executeFlowWith rgx clock exec parent flow ctx0 reg st =
      (match flow.return_step with
       | some rid =>
         if rid = "" then finishLast last
         else
           match (match getK ctxF "steps" with
                  | some (.dict d) => getK d rid
                  | _ => none) with
           | some (.dict r) => pure (.dict r)
           | _ => pure (mkRes false 500 (errData "flow return_step missing"))
       | none => finishLast last) st2 := by
    unfold executeFlowWith
    rw [if_neg (not_lt.mpr hd), hre]
    show (flowLoopF rgx clock exec parent reg (flowDepth ctx0)
        (flow.steps.length + 1) flow.steps (flowInitCtx flow ctx0) none >>=
          fun out => _) st = _
    rw [bind_apply, hloop]
  refine ⟨?_, ?_, ?_⟩
  · intro rid hrid hne d hstd
    constructor
    · intro r hr2
      rw [hmain, hrid]
      simp only [if_neg hne, hstd, hr2]
      rfl
    · intro hr2
      rw [hmain, hrid]
      simp only [if_neg hne, hstd, hr2]
      rfl
  · intro hnone
    rw [hmain, hnone]
    cases last with
    | none => rfl
    | some l => rfl
  · intro hsteps
    rw [hsteps] at hloop
    have h : ((Except.ok (LoopOut.done (flowInitCtx flow ctx0) none) :
        Except Err LoopOut), st) = (.ok (.done ctxF last), st2) := hloop
    rw [Prod.mk.injEq] at h
    obtain ⟨h1, h2⟩ := h
    injection h1 with h1
    injection h1 with ha hb
    exact ⟨ha.symm, hb.symm, h2.symm⟩

/-- Claim C5 witness: a concrete flow whose loop completes normally,
under each completion mode (stored `return_step`, missing
`return_step`, no `return_step`, empty step list). -/
theorem c5_witness :
    executeFlowWith rgx0 clock0
      (executeAction rgx0 clock0 extBoom [] 4) workflowA
      (FlowActionSpec.mk
        [{ id := "a", use := "make_value",
           set := .dict [("answer", .str "${steps.a.data.answer}")] }]
        (some "a") none)
      [] regA 0 =
      (.ok (mkRes true 200 (.dict [("answer", .num 42)])), 0)
    ∧ executeFlowWith rgx0 clock0
      (executeAction rgx0 clock0 extBoom [] 4) workflowA
      (FlowActionSpec.mk
        [{ id := "a", use := "make_value" }] (some "zz") none)
      [] regA 0 =
      (.ok (mkRes false 500 (errData "flow return_step missing")), 0)
    ∧ executeFlowWith rgx0 clock0
      (executeAction rgx0 clock0 extBoom [] 4) workflowA
      (FlowActionSpec.mk [{ id := "a", use := "make_value" }] none none)
      [] regA 0 =
      (.ok (mkRes true 200 (.dict [("answer", .num 42)])), 0)
    ∧ executeFlowWith rgx0 clock0
      (executeAction rgx0 clock0 extBoom [] 4) workflowA
      (FlowActionSpec.mk [] none none) [] regA 0 =
      (.ok (mkRes true 200 .null), 0) := by
  refine ⟨?_, ?_, ?_, ?_⟩
  · exact ((c5_flow_completion rgx0 clock0 (executeAction rgx0 clock0 extBoom [] 4)
      workflowA
      (FlowActionSpec.mk
        [{ id := "a", use := "make_value",
           set := .dict [("answer", .str "${steps.a.data.answer}")] }]
        (some "a") none)
      [] regA 0 0
      [("steps", .dict [("a", mkRes true 200 (.dict [("answer", .num 42)]))]),
       ("vars", .dict [("answer", .num 42)])]
      (some (mkRes true 200 (.dict [("answer", .num 42)])))
      (by decide) (List.cons_ne_nil _ _) rfl).1 "a" rfl (by decide)
      [("a", mkRes true 200 (.dict [("answer", .num 42)]))] rfl).1
      [("ok", .bool true), ("status", .num 200),
       ("data", .dict [("answer", .num 42)])] rfl
  · exact ((c5_flow_completion rgx0 clock0 (executeAction rgx0 clock0 extBoom [] 4)
      workflowA
      (FlowActionSpec.mk [{ id := "a", use := "make_value" }] (some "zz") none)
      [] regA 0 0
      [("steps", .dict [("a", mkRes true 200 (.dict [("answer", .num 42)]))]),
       ("vars", .dict [])]
      (some (mkRes true 200 (.dict [("answer", .num 42)])))
      (by decide) (List.cons_ne_nil _ _) rfl).1 "zz" rfl (by decide)
      [("a", mkRes true 200 (.dict [("answer", .num 42)]))] rfl).2 rfl
  · exact (c5_flow_completion rgx0 clock0 (executeAction rgx0 clock0 extBoom [] 4)
      workflowA
      (FlowActionSpec.mk [{ id := "a", use := "make_value" }] none none)
      [] regA 0 0
      [("steps", .dict [("a", mkRes true 200 (.dict [("answer", .num 42)]))]),
       ("vars", .dict [])]
      (some (mkRes true 200 (.dict [("answer", .num 42)])))
      (by decide) (List.cons_ne_nil _ _) rfl).2.1 rfl
  · exact (c5_flow_completion rgx0 clock0 (executeAction rgx0 clock0 extBoom [] 4)
      workflowA
      (FlowActionSpec.mk [] none none)
      [] regA 0 0
      [("steps", .dict []), ("vars", .dict [])] none
      (by decide) (List.cons_ne_nil _ _) rfl).2.1 rfl

/-- Claim C6: rendering a string that strips to exactly one placeholder
yields the path-resolved value itself — its native type — whereas any
other string is substituted as text (each embedded placeholder replaced
by the `str()` of its resolved value, a missing value rendering as empty
text); lists and dicts render elementwise and entrywise, and null,
booleans and numbers pass through unchanged. -/
theorem c6_render_value (ctx : Ctx) :
    (∀ (s : String) (inner : List Char), exactHole (cStrip s.data) = some inner →
        render_value ctx (.str s) = lookup_path (sStrip ⟨inner⟩) ctx)
    ∧ (∀ s : String, exactHole (cStrip s.data) = none →
        render_value ctx (.str s) = .str (render_str s ctx))
    ∧ (∀ pre e post : List Char, '$' ∉ pre → '\x7d' ∉ e → e ≠ [] →
        render_str ⟨pre ++ '$' :: '\x7b' :: (e ++ '\x7d' :: post)⟩ ctx =
          ⟨pre ++ (subText ⟨e⟩ ctx ++ scanText ctx post)⟩)
    ∧ (∀ inner : String, lookup_path (sStrip inner) ctx = .null →
        subText inner ctx = [])
    ∧ (∀ xs, render_value ctx (.list xs) = .list (xs.map (render_value ctx)))
    ∧ (∀ d, render_value ctx (.dict d) =
        .dict (d.map (fun p => (p.1, render_value ctx p.2))))
    ∧ (∀ n : Int, render_value ctx (.num n) = .num n)
    ∧ (∀ b, render_value ctx (.bool b) = .bool b)
    ∧ render_value ctx .null = .null := by
  refine ⟨?_, ?_, ?_, ?_, ?_, ?_, fun _ => rfl, fun _ => rfl, rfl⟩
  · intro s inner h
    simp only [render_value, h]
  · intro s h
    simp only [render_value, h]
  · intro pre e post hpre he hne
    show (⟨scanText ctx (pre ++ '$' :: '\x7b' :: (e ++ '\x7d' :: post))⟩ : String) = _
    rw [scanText_subst ctx pre e post hpre he hne]
  · intro inner h
    simp only [subText, h]
  · intro xs
    simp only [render_value, renderL_map]
  · intro d
    simp only [render_value, renderP_map]

/-- Claim C6 witness: the spec scenario — `"$\x7bvars.answer\x7d"`
renders to the number 42, not the text 42; an embedded placeholder
substitutes as text; a missing value substitutes as empty text. -/
theorem c6_witness :
    render_value ctxR (.str "${vars.answer}") = .num 42
    ∧ render_str "n=${vars.answer}!" ctxR = "n=42!"
    ∧ subText "vars.missing" ctxR = [] := by
  refine ⟨?_, ?_, ?_⟩
  · exact ((c6_render_value ctxR).1 "${vars.answer}" "vars.answer".data rfl).trans rfl
  · exact ((c6_render_value ctxR).2.2.1 "n=".data "vars.answer".data "!".data
      (by decide) (by decide) (by decide)).trans rfl
  · exact (c6_render_value ctxR).2.2.2.1 "vars.missing" rfl

/-- Claim C7: for `$any`/`$all` over a path (with a well-formed nested
condition dict): a path resolving to a list binds each element to the
local name `item` in a copy of the context and evaluates the nested
condition per element, so when those evaluations are error-free the
results are the existential (`any`) and universal (`all`) of the
per-element predicate — in particular `ok false` / vacuously `ok true`
on the empty list; a path resolving to null is treated as the empty
list, giving `ok false` for `$any` and `ok true` for `$all`. -/
theorem c7_any_all_quantifiers (rgx : String → String → Except Err Bool)
    (f : Nat) (p : String) (c : List (String × JVal)) (ctx : Ctx)
    (pred : JVal → Bool) (hp : (cStrip p.data).isEmpty = false) :
    (∀ items, lookup_path p ctx = .list items →
        (∀ x ∈ items,
          evalCondF rgx f (.dict c) (setK ctx "item" x) = Except.ok (pred x)) →
        evalCondF rgx (f + 1) (.dict [("$any", .list [.str p, .dict c])]) ctx =
          Except.ok (items.any pred)
        ∧ evalCondF rgx (f + 1) (.dict [("$all", .list [.str p, .dict c])]) ctx =
          Except.ok (items.all pred))
    ∧ (lookup_path p ctx = .null →
        evalCondF rgx (f + 1) (.dict [("$any", .list [.str p, .dict c])]) ctx =
          Except.ok false
        ∧ evalCondF rgx (f + 1) (.dict [("$all", .list [.str p, .dict c])]) ctx =
          Except.ok true) := by
  constructor
  · intro items hl hels
    rw [evalCondF_any_unfold, evalCondF_all_unfold, hp, hl]
    simp only [Bool.false_eq_true, if_false]
    exact ⟨anyMachine_eval _ pred items hels, allMachine_eval _ pred items hels⟩
  · intro hl
    rw [evalCondF_any_unfold, evalCondF_all_unfold, hp, hl]
    simp only [Bool.false_eq_true, if_false]
    exact ⟨rfl, rfl⟩

/-- Claim C7 witness: the spec scenario — tags `["vip", "new"]` satisfy
`$any` equality with `"vip"` but not `$all`; a null path behaves as the
empty list. -/
theorem c7_witness :
    evalCondF rgx0 6
      (.dict [("$any", .list [.str "row.tags",
         .dict [("$eq", .list [.str "item", .str "vip"])]])]) ctxT3 =
      Except.ok true
    ∧ evalCondF rgx0 6
      (.dict [("$all", .list [.str "row.tags",
         .dict [("$eq", .list [.str "item", .str "vip"])]])]) ctxT3 =
      Except.ok false
    ∧ evalCondF rgx0 6
      (.dict [("$all", .list [.str "nothing",
         .dict [("$eq", .list [.str "item", .str "vip"])]])]) ctxT3 =
      Except.ok true := by
  have h1 := (c7_any_all_quantifiers rgx0 5 "row.tags"
    [("$eq", .list [.str "item", .str "vip"])] ctxT3
    (fun x => jBeq x (.str "vip")) rfl).1 [.str "vip", .str "new"] rfl
    (by
      intro x hx
      simp only [List.mem_cons, List.not_mem_nil, or_false] at hx
      rcases hx with rfl | rfl <;> rfl)
  have h2 := (c7_any_all_quantifiers rgx0 5 "nothing"
    [("$eq", .list [.str "item", .str "vip"])] ctxT3
    (fun x => jBeq x (.str "vip")) rfl).2 rfl
  exact ⟨h1.1, h1.2, h2.2⟩

/-- Claim C10: evaluating a condition value that is neither null, a
boolean, a list, nor a map — a number or a plain string — returns false
without raising, at any fuel and at the canonical fuel: evaluation is
total over such scalar condition values. -/
theorem c10_scalar_condition_false (rgx : String → String → Except Err Bool)
    (n : Int) (s : String) (ctx : Ctx) (f : Nat) :
    evalCondF rgx (f + 1) (.num n) ctx = .ok false
    ∧ evalCondF rgx (f + 1) (.str s) ctx = .ok false
    ∧ eval_condition rgx (.num n) ctx = .ok false
    ∧ eval_condition rgx (.str s) ctx = .ok false :=
  ⟨rfl, rfl, rfl, rfl⟩

/-- Claim C9: `_auth_level` maps any auth string other than `none`,
`api`, `admin` to level 0, the least privilege.  Consequently the
escalation guard of `_run_step` can never fire against such an action
(it can be invoked from any flow), while a flow carrying an
unrecognized auth label is refused any `api`- or `admin`-level action
with the configuration error, before anything executes. -/
theorem c9_unrecognized_auth_least
    (a : String) (h1 : a ≠ "none") (h2 : a ≠ "api") (h3 : a ≠ "admin") :
    authLevel a = 0
    ∧ (∀ b : String, ¬ authLevel a > authLevel b)
    ∧ authLevel "api" > authLevel a
    ∧ authLevel "admin" > authLevel a
    ∧ (∀ (clock : Nat → Int)
         (exec : ActionSpec → JVal → JVal → Ctx → Registry → M JVal)
         (parent : ActionSpec) (reg : Registry) (depth : Int) (ctx : Ctx)
         (step : FlowStepSpec) (sub : ActionSpec) (snap : Option (JVal × JVal)),
         getK reg step.use = some sub → parent.auth = a →
         (sub.auth = "api" ∨ sub.auth = "admin") →
         runStepW clock exec parent reg depth ctx step snap =
           raiseM ("Flow cannot use action " ++ sub.name ++ " with auth=" ++
             sub.auth ++ " from flow auth=" ++ parent.auth)) := by
  have h0 : authLevel a = 0 := by
    unfold authLevel
    rw [if_neg h1, if_neg h2, if_neg h3]
  refine ⟨h0, ?_, ?_, ?_, ?_⟩
  · intro b
    rw [h0]
    exact not_lt_of_le (authLevel_nonneg b)
  · rw [h0]; exact (by decide : (0 : Int) < authLevel "api")
  · rw [h0]; exact (by decide : (0 : Int) < authLevel "admin")
  · intro clock exec parent reg depth ctx step sub snap hreg hpa hsub
    unfold runStepW
    rw [hreg]
    have hgt : authLevel sub.auth > authLevel parent.auth := by
      rw [hpa, h0]
      rcases hsub with h | h <;> rw [h] <;>
        first
        | exact (by decide : (0 : Int) < authLevel "api")
        | exact (by decide : (0 : Int) < authLevel "admin")
    exact if_pos hgt

/-- Claim C9 witness: a concrete unrecognized auth label. -/
theorem c9_witness :
    authLevel "weird" = 0
    ∧ runStepW clock0 (fun _ _ _ _ _ => pure .null)
        { name := "p", kind := "flow", auth := "weird" }
        [("adm", { name := "adm", kind := "value", auth := "admin" })] 0 []
        { id := "s", use := "adm" } none =
      raiseM "Flow cannot use action adm with auth=admin from flow auth=weird" := by
  have h := c9_unrecognized_auth_least "weird" (by decide) (by decide) (by decide)
  exact ⟨h.1, h.2.2.2.2 clock0 (fun _ _ _ _ _ => pure .null)
    { name := "p", kind := "flow", auth := "weird" }
    [("adm", { name := "adm", kind := "value", auth := "admin" })] 0 []
    { id := "s", use := "adm" }
    { name := "adm", kind := "value", auth := "admin" } none rfl rfl (Or.inr rfl)⟩

set_option maxHeartbeats 16000000 in
/-- Claim C3: parallel-group merge determinism.  The merge loop
consumes the futures dict only through per-step-id lookups, so any two
futures dicts agreeing on the group members ids merge identically
(completion order is irrelevant); in declared order, the first failing
member whose on-error mode is not continue ends the flow with that
member result, whatever follows it in the group; and concretely, a
member gated on a sibling result skips (gates see the pre-group
snapshot) while a later sequential step with the same gate runs, vars
written by several members resolve to the declared-last write, and of
two failing members the declared-first non-continue one (or, when it
continues, the next failing one) supplies the flow result. -/
theorem c3_parallel_merge :
    (∀ (futures1 futures2 preset : List (String × JVal))
       (group : List FlowStepSpec) (ctx : Ctx) (last : Option JVal),
       (∀ s ∈ group, getK futures1 s.id = getK futures2 s.id) →
       mergeLoop futures1 preset group ctx last =
         mergeLoop futures2 preset group ctx last)
    ∧ (∀ (futures preset : List (String × JVal)) (pre : List FlowStepSpec)
         (s : FlowStepSpec) (rest : List FlowStepSpec) (ctx : Ctx)
         (last : Option JVal),
       (∀ t ∈ pre, resOk (groupResult futures preset t) = true ∨
         onErrMode t.on_error = "continue") →
       (∀ t ∈ pre, t.set = JVal.null) → s.set = JVal.null →
       resOk (groupResult futures preset s) = false →
       onErrMode s.on_error ≠ "continue" →
       mergeLoop futures preset (pre ++ s :: rest) ctx last =
         pure (.inl (groupResult futures preset s)))
    ∧ executeAction rgx0 clock0 extBoom [] 5 flowPar .null .null [] regC3 0 =
        (.ok (mkRes true 200 (.dict
          [("p2sk", .bool true), ("s4st", .num 200), ("x", .num 20)])), 0)
    ∧ executeAction rgx0 clock0 extBoom [] 5 flowFailStop .null .null [] regC3 0 =
        (.ok (mkRes false 400 (errData "first")), 0)
    ∧ executeAction rgx0 clock0 extBoom [] 5 flowFailCont .null .null [] regC3 0 =
        (.ok (mkRes false 401 (errData "second")), 0) :=
  ⟨mergeLoop_futures_ext, mergeLoop_first_failure, rfl, rfl, rfl⟩

/-- Claim C3 witness: the extensionality conjunct applied to two
futures dicts listing the same two results in opposite completion
orders, and the first-failure conjunct applied to a group whose first
failing member continues and whose second, declared later, stops the
flow ahead of a yet-later member. -/
theorem c3_witness :
    mergeLoop [("a", mkRes true 200 (.num 1)), ("b", mkRes false 400 .null)] []
        [{ id := "a", use := "one" },
         { id := "b", use := "two", on_error := some "continue" }] [] none =
      mergeLoop [("b", mkRes false 400 .null), ("a", mkRes true 200 (.num 1))] []
        [{ id := "a", use := "one" },
         { id := "b", use := "two", on_error := some "continue" }] [] none
    ∧ mergeLoop
        [("a", mkRes true 200 (.num 1)), ("b", mkRes false 400 .null),
         ("c", mkRes false 401 .null)] []
        ([{ id := "a", use := "one" },
          { id := "b", use := "two", on_error := some "continue" }] ++
         { id := "c", use := "three" } :: [{ id := "d", use := "four" }])
        [] none =
      pure (.inl (groupResult
        [("a", mkRes true 200 (.num 1)), ("b", mkRes false 400 .null),
         ("c", mkRes false 401 .null)] [] { id := "c", use := "three" })) := by
  refine ⟨c3_parallel_merge.1 _ _ _ _ _ _ ?_,
    c3_parallel_merge.2.1 _ _
      [{ id := "a", use := "one" },
       { id := "b", use := "two", on_error := some "continue" }]
      { id := "c", use := "three" } [{ id := "d", use := "four" }] [] none
      ?_ ?_ rfl rfl (by decide)⟩
  · intro s hs
    simp only [List.mem_cons, List.not_mem_nil, or_false] at hs
    rcases hs with rfl | rfl <;> rfl
  · intro t ht
    simp only [List.mem_cons, List.not_mem_nil, or_false] at ht
    rcases ht with rfl | rfl
    · exact Or.inl rfl
    · exact Or.inr rfl
  · intro t ht
    simp only [List.mem_cons, List.not_mem_nil, or_false] at ht
    rcases ht with rfl | rfl <;> rfl

end VW
